import Mathlib

/-!
# Block Blaster: placement and clearing engine

A shallow embedding of `src/main.c` (the game logic of a 10x10 block puzzle)
and theorems about it.

Modelling conventions.

* C `int` values are mathematical integers (`Int`).  Signed overflow is
  undefined in C and is not modelled; the only unbounded quantity is the
  score, which grows by at most 10000 per placement.  Loop counters that start
  at `0` and count upwards are natural numbers; `for (i = 0; i < n; i++)` with
  an `int` bound `n` runs over `List.range n.toNat`, so a non-positive bound
  gives no iteration, as in C.
* `int grid[10][10]` is a function `Fin 10 → Fin 10 → Int`, indexed
  `grid y x` like `grid[y][x]`.  An array access whose index the source does
  not check is bounds-checked here: the operation returns `none` when the
  index is outside the array (undefined behaviour in C).
* A loop that leaves through `return false` or `break` on the first hit is a
  `List.all` or `List.any` over the same index sequence.
* Every value the program obtains from its environment during a call (the
  results of `rand()`, the raylib input queries) is an explicit argument.
-/

namespace BlockBlaster

/-! ## Data model -/

/-- The raylib colour: four `unsigned char` channels. -/
structure Color where
  r : Nat
  g : Nat
  b : Nat
  a : Nat
deriving DecidableEq

/-- The raylib 2D vector.  The game logic only stores and copies it; the
arithmetic done on the mouse position reaches the model through
`FrameInput.cellX`, `FrameInput.cellY` and `FrameInput.overSlot`. -/
structure Vector2 where
  x : Int
  y : Int
deriving DecidableEq

/-- The struct `BlockShape`: `bool cells[6][6]`, bounding box, gradient colours. -/
structure BlockShape where
  cells : Fin 6 → Fin 6 → Bool
  width : Int
  height : Int
  colorStart : Color
  colorEnd : Color

/-- The read `block.cells[y][x]` for loop counters `y`, `x`.  The array has 6
rows and 6 columns; the source reads it only for `y < height`, `x < width`,
which stays inside the array when `width, height ≤ 6`. -/
def BlockShape.cellAt (block : BlockShape) (y x : Nat) : Bool :=
  if h : y < 6 ∧ x < 6 then block.cells ⟨y, h.1⟩ ⟨x, h.2⟩ else false

/-- The struct `GameState`. -/
structure GameState where
  grid : Fin 10 → Fin 10 → Int
  gridColors : Fin 10 → Fin 10 → Fin 2 → Color
  currentBlocks : Fin 3 → BlockShape
  score : Int
  gameOver : Bool
  isDragging : Bool
  draggedBlockIndex : Int
  dragPosition : Vector2

/-- A brace initialiser of `cells`: the listed rows, the rest zero-filled. -/
def maskOf (rows : List (List Bool)) : Fin 6 → Fin 6 → Bool :=
  fun y x => (rows.getD y.val []).getD x.val false

/-- The global table `ShapeLibrary`. -/
def ShapeLibrary : List BlockShape :=
  [ -- 1x1 block
    { cells := maskOf [[true]],
      width := 1, height := 1,
      colorStart := ⟨230, 41, 55, 255⟩, colorEnd := ⟨255, 161, 150, 255⟩ },
    -- 2x2 block
    { cells := maskOf [[true, true],
                       [true, true]],
      width := 2, height := 2,
      colorStart := ⟨0, 228, 48, 255⟩, colorEnd := ⟨161, 255, 150, 255⟩ },
    -- L shape
    { cells := maskOf [[true, false],
                       [true, false],
                       [true, true]],
      width := 2, height := 3,
      colorStart := ⟨0, 121, 241, 255⟩, colorEnd := ⟨150, 220, 255, 255⟩ },
    -- Tetris line (4 blocks)
    { cells := maskOf [[true],
                       [true],
                       [true],
                       [true]],
      width := 1, height := 4,
      colorStart := ⟨253, 249, 0, 255⟩, colorEnd := ⟨255, 253, 150, 255⟩ },
    -- T shape
    { cells := maskOf [[true, true, true],
                       [false, true, false]],
      width := 3, height := 2,
      colorStart := ⟨200, 122, 255, 255⟩, colorEnd := ⟨230, 190, 255, 255⟩ },
    -- Horizontal line (6 blocks)
    { cells := maskOf [[true, true, true, true, true, true]],
      width := 6, height := 1,
      colorStart := ⟨255, 109, 194, 255⟩, colorEnd := ⟨255, 200, 230, 255⟩ },
    -- Vertical line (6 blocks)
    { cells := maskOf [[true],
                       [true],
                       [true],
                       [true],
                       [true],
                       [true]],
      width := 1, height := 6,
      colorStart := ⟨255, 144, 30, 255⟩, colorEnd := ⟨255, 210, 161, 255⟩ } ]

/-- The local `numShapes = sizeof(ShapeLibrary) / sizeof(ShapeLibrary[0])`. -/
def numShapes : Nat := ShapeLibrary.length

/-- The expression `ShapeLibrary[rand() % numShapes]` for a `rand()` result `r`. -/
def drawShape (r : Nat) : BlockShape :=
  ShapeLibrary.get ⟨r % numShapes, Nat.mod_lt r (by decide)⟩

/-! ## Grid primitives -/

/-- The assignment `grid[y][x] = v`. -/
def setCell (grid : Fin 10 → Fin 10 → Int) (y x : Fin 10) (v : Int) :
    Fin 10 → Fin 10 → Int :=
  fun r c => if r = y ∧ c = x then v else grid r c

/-- The two assignments `gridColors[y][x][0] = c0; gridColors[y][x][1] = c1`. -/
def setColors (colors : Fin 10 → Fin 10 → Fin 2 → Color) (y x : Fin 10)
    (c0 c1 : Color) : Fin 10 → Fin 10 → Fin 2 → Color :=
  fun r c k => if r = y ∧ c = x then (if k = 0 then c0 else c1) else colors r c k

/-! ## GenerateRandomBlocks and InitGame -/

/-- The function `GenerateRandomBlocks`: slot `i` receives the library entry chosen by the
`i`-th `rand()` result. -/
def GenerateRandomBlocks (game : GameState) (rands : Fin 3 → Nat) : GameState :=
  (List.finRange 3).foldl
    (fun g i =>
      { g with currentBlocks := fun j => if j = i then drawShape (rands i) else g.currentBlocks j })
    game

/-- The function `InitGame`: zero the grid cell by cell, reset score and flags, draw three
blocks.  `gridColors`, `draggedBlockIndex` and `dragPosition` are not touched. -/
def InitGame (game : GameState) (rands : Fin 3 → Nat) : GameState :=
  let grid := (List.finRange 10).foldl
    (fun g y => (List.finRange 10).foldl (fun g x => setCell g y x 0) g) game.grid
  GenerateRandomBlocks
    { game with grid := grid, score := 0, gameOver := false, isDragging := false } rands

/-! ## IsValidPlacement -/

/-- The function `IsValidPlacement`: every occupied mask cell inside the bounding box must
land inside the grid on an empty cell; the first failure returns `false`. -/
def IsValidPlacement (game : GameState) (block : BlockShape) (gridX gridY : Int) : Bool :=
  (List.range block.height.toNat).all fun y =>
    (List.range block.width.toNat).all fun x =>
      if block.cellAt y x then
        let posX := gridX + (x : Int)
        let posY := gridY + (y : Int)
        if h : posX < 0 ∨ posX ≥ 10 ∨ posY < 0 ∨ posY ≥ 10 then
          false
        else if game.grid ⟨posY.toNat, by omega⟩ ⟨posX.toNat, by omega⟩ ≠ 0 then
          false
        else
          true
      else
        true

/-! ## CheckAndClearLines -/

/-- The flag `lineComplete` of the horizontal scan of row `y`. -/
def rowComplete (grid : Fin 10 → Fin 10 → Int) (y : Fin 10) : Bool :=
  (List.finRange 10).all fun x => !(grid y x == 0)

/-- The flag `lineComplete` of the vertical scan of column `x`. -/
def colComplete (grid : Fin 10 → Fin 10 → Int) (x : Fin 10) : Bool :=
  (List.finRange 10).all fun y => !(grid y x == 0)

/-- The loop `for x: grid[y][x] = 0` that clears row `y`. -/
def clearRow (grid : Fin 10 → Fin 10 → Int) (y : Fin 10) : Fin 10 → Fin 10 → Int :=
  (List.finRange 10).foldl (fun g x => setCell g y x 0) grid

/-- The loop `for y: grid[y][x] = 0` that clears column `x`. -/
def clearCol (grid : Fin 10 → Fin 10 → Int) (x : Fin 10) : Fin 10 → Fin 10 → Int :=
  (List.finRange 10).foldl (fun g y => setCell g y x 0) grid

/-- One iteration of the horizontal loop on the pair (grid, linesCleared). -/
def rowStep (st : (Fin 10 → Fin 10 → Int) × Int) (y : Fin 10) :
    (Fin 10 → Fin 10 → Int) × Int :=
  if rowComplete st.1 y then (clearRow st.1 y, st.2 + 1) else st

/-- One iteration of the vertical loop on the pair (grid, linesCleared). -/
def colStep (st : (Fin 10 → Fin 10 → Int) × Int) (x : Fin 10) :
    (Fin 10 → Fin 10 → Int) × Int :=
  if colComplete st.1 x then (clearCol st.1 x, st.2 + 1) else st

/-- The horizontal loop of `CheckAndClearLines` over the rows in `ys`. -/
def rowPass (ys : List (Fin 10)) (st : (Fin 10 → Fin 10 → Int) × Int) :
    (Fin 10 → Fin 10 → Int) × Int :=
  ys.foldl rowStep st

/-- The vertical loop of `CheckAndClearLines` over the columns in `xs`. -/
def colPass (xs : List (Fin 10)) (st : (Fin 10 → Fin 10 → Int) × Int) :
    (Fin 10 → Fin 10 → Int) × Int :=
  xs.foldl colStep st

/-- The final `if / else if` chain that awards points. -/
def awardPoints (score linesCleared : Int) : Int :=
  if linesCleared = 1 then score + 100
  else if linesCleared = 2 then score + 300
  else if linesCleared ≥ 3 then score + 500 * linesCleared
  else score

/-- The function `CheckAndClearLines`: the horizontal loop, then the vertical loop on the
grid the horizontal loop left, then the score update. -/
def CheckAndClearLines (game : GameState) : GameState :=
  let st := colPass (List.finRange 10) (rowPass (List.finRange 10) (game.grid, 0))
  { game with grid := st.1, score := awardPoints game.score st.2 }

/-! ## PlaceBlock -/

/-- The three assignments of the innermost body of `PlaceBlock` at the cell
`(posY, posX)`; `none` when the cell is outside the arrays. -/
def writeCell (game : GameState) (block : BlockShape) (colorIndex : Int)
    (posY posX : Int) : Option GameState :=
  if h : 0 ≤ posY ∧ posY < 10 ∧ 0 ≤ posX ∧ posX < 10 then
    let r : Fin 10 := ⟨posY.toNat, by omega⟩
    let c : Fin 10 := ⟨posX.toNat, by omega⟩
    some { game with
      grid := setCell game.grid r c colorIndex,
      gridColors := setColors game.gridColors r c block.colorStart block.colorEnd }
  else
    none

/-- The inner loop (over `x`) of the placement loop of `PlaceBlock` for row `y`. -/
def placeRow (block : BlockShape) (colorIndex gridX gridY : Int) (y : Nat)
    (xs : List Nat) (game : GameState) : Option GameState :=
  xs.foldlM
    (fun g x =>
      if block.cellAt y x then writeCell g block colorIndex (gridY + (y : Int)) (gridX + (x : Int))
      else some g)
    game

/-- The placement loop of `PlaceBlock` over the rows `ys` and columns `xs`. -/
def placeCells (block : BlockShape) (colorIndex gridX gridY : Int)
    (ys xs : List Nat) (game : GameState) : Option GameState :=
  ys.foldlM (fun g y => placeRow block colorIndex gridX gridY y xs g) game

/-- The assignment `currentBlocks[draggedBlockIndex] = shape; isDragging = false`;
`none` when `draggedBlockIndex` is outside `0..2`. -/
def refillSlot (game : GameState) (shape : BlockShape) : Option GameState :=
  if h : 0 ≤ game.draggedBlockIndex ∧ game.draggedBlockIndex < 3 then
    let k : Fin 3 := ⟨game.draggedBlockIndex.toNat, by omega⟩
    some { game with
      currentBlocks := fun j => if j = k then shape else game.currentBlocks j,
      isDragging := false }
  else
    none

/-- The flag `canPlaceAny` after the triple scan loop of `PlaceBlock`. -/
def canPlaceAny (game : GameState) : Bool :=
  (List.finRange 3).any fun i =>
    (List.range 10).any fun y =>
      (List.range 10).any fun x =>
        IsValidPlacement game (game.currentBlocks i) (x : Int) (y : Int)

/-- The function `PlaceBlock`; `rand1` and `rand2` are the results of its two `rand()` calls. -/
def PlaceBlock (game : GameState) (block : BlockShape) (gridX gridY : Int)
    (rand1 rand2 : Nat) : Option GameState :=
  let colorIndex : Int := 1 + ((rand1 % 1000 : Nat) : Int)
  match placeCells block colorIndex gridX gridY
      (List.range block.height.toNat) (List.range block.width.toNat) game with
  | none => none
  | some g1 =>
    match refillSlot g1 (drawShape rand2) with
    | none => none
    | some g2 =>
      let g3 := CheckAndClearLines g2
      if !canPlaceAny g3 then some { g3 with gameOver := true } else some g3

/-! ## UpdateGame -/

/-- What one call of `UpdateGame` obtains from raylib and from `rand()`. -/
structure FrameInput where
  /-- The result of `IsKeyPressed(KEY_R)`. -/
  keyR : Bool
  /-- The result of `GetMousePosition()`. -/
  mousePos : Vector2
  /-- The value `(mousePos.x - GRID_PADDING - CELL_SIZE/2) / CELL_SIZE` converted to `int`. -/
  cellX : Int
  /-- The value `(mousePos.y - GRID_PADDING - CELL_SIZE/2) / CELL_SIZE` converted to `int`. -/
  cellY : Int
  /-- The result of `IsMouseButtonPressed(MOUSE_LEFT_BUTTON)`. -/
  leftPressed : Bool
  /-- The result of `IsMouseButtonReleased(MOUSE_LEFT_BUTTON)`. -/
  leftReleased : Bool
  /-- Whether the mouse position is inside the rectangle of offered block `i`. -/
  overSlot : Fin 3 → Bool
  /-- The first `rand()` result of `PlaceBlock` (the colour index). -/
  randColor : Nat
  /-- The second `rand()` result of `PlaceBlock` (the refill shape). -/
  randShape : Nat
  /-- The three `rand()` results of `GenerateRandomBlocks`. -/
  randInit : Fin 3 → Nat

/-- The branch of `UpdateGame` taken on a mouse release while dragging. -/
def releaseBlock (game : GameState) (inp : FrameInput) : Option GameState :=
  let placed : Option GameState :=
    if inp.cellX ≥ 0 ∧ inp.cellX < 10 ∧ inp.cellY ≥ 0 ∧ inp.cellY < 10 then
      if h : 0 ≤ game.draggedBlockIndex ∧ game.draggedBlockIndex < 3 then
        let block := game.currentBlocks ⟨game.draggedBlockIndex.toNat, by omega⟩
        let gridX := inp.cellX - Int.tdiv block.width 2
        let gridY := inp.cellY - Int.tdiv block.height 2
        if IsValidPlacement game block gridX gridY then
          PlaceBlock game block gridX gridY inp.randColor inp.randShape
        else
          some game
      else
        none
    else
      some game
  placed.map fun g => { g with isDragging := false }

/-- The branch of `UpdateGame` taken on a mouse press: the first offered block
whose rectangle holds the mouse position becomes the dragged one. -/
def pressBlock (game : GameState) (inp : FrameInput) : GameState :=
  match (List.finRange 3).find? inp.overSlot with
  | some i =>
    { game with
      isDragging := true, draggedBlockIndex := (i.val : Int), dragPosition := inp.mousePos }
  | none => game

/-- The function `UpdateGame`. -/
def UpdateGame (game : GameState) (inp : FrameInput) : Option GameState :=
  if game.gameOver then
    if inp.keyR then some (InitGame game inp.randInit) else some game
  else
    let handled : Option GameState :=
      if inp.leftPressed then some (pressBlock game inp)
      else if inp.leftReleased && game.isDragging then releaseBlock game inp
      else some game
    handled.map fun g => if g.isDragging then { g with dragPosition := inp.mousePos } else g

/-! ## Definitions used in the statements -/

/-- The bounds-checked read of `grid[posY][posX]` at integer coordinates. -/
def gridAt (grid : Fin 10 → Fin 10 → Int) (posY posX : Int) : Option Int :=
  if h : 0 ≤ posY ∧ posY < 10 ∧ 0 ≤ posX ∧ posX < 10 then
    some (grid ⟨posY.toNat, by omega⟩ ⟨posX.toNat, by omega⟩)
  else
    none

/-- A game state with an empty grid, used for concrete instances. -/
def emptyState : GameState :=
  { grid := fun _ _ => 0, gridColors := fun _ _ _ => ⟨0, 0, 0, 0⟩,
    currentBlocks := fun _ => drawShape 0, score := 0, gameOver := false,
    isDragging := false, draggedBlockIndex := 0, dragPosition := ⟨0, 0⟩ }

/-- A 2x2 shape whose only occupied mask cell is the lower right one. -/
def cornerShape : BlockShape :=
  { cells := maskOf [[false, false], [false, true]], width := 2, height := 2,
    colorStart := ⟨1, 2, 3, 255⟩, colorEnd := ⟨4, 5, 6, 255⟩ }

/-- The mask of a shape read inside its bounding box, row by row. -/
def maskRows (block : BlockShape) : List (List Bool) :=
  (List.range block.height.toNat).map fun y =>
    (List.range block.width.toNat).map fun x => block.cellAt y x

/-- The number of occupied mask cells inside the bounding box. -/
def occupiedCount (block : BlockShape) : Nat :=
  ((maskRows block).map fun row => row.count true).sum

/-- The number of fully occupied rows of a grid. -/
def completeRows (grid : Fin 10 → Fin 10 → Int) : Nat :=
  (List.finRange 10).countP (rowComplete grid)

/-- The number of fully occupied columns of a grid. -/
def completeCols (grid : Fin 10 → Fin 10 → Int) : Nat :=
  (List.finRange 10).countP (colComplete grid)

/-- The grid with every fully occupied row emptied. -/
def rowsEmptied (grid : Fin 10 → Fin 10 → Int) : Fin 10 → Fin 10 → Int :=
  fun r c => if rowComplete grid r then 0 else grid r c

/-- The grid with every fully occupied column emptied. -/
def colsEmptied (grid : Fin 10 → Fin 10 → Int) : Fin 10 → Fin 10 → Int :=
  fun r c => if colComplete grid c then 0 else grid r c

/-- The score delta of the spec for `n` cleared lines: 0, 100, 300, then 500 per line. -/
def specScoreDelta (n : Nat) : Int :=
  if n = 0 then 0 else if n = 1 then 100 else if n = 2 then 300 else 500 * (n : Int)

/-- The snapshot reference of the spec (section 4.4), written from its words:
rows and columns are flagged on the pre-clear grid, every cell of a flagged row
or flagged column is emptied, and the score grows by the delta for the number
of flagged rows plus flagged columns. -/
def specCheckAndClearLines (game : GameState) : GameState :=
  { game with
    grid := fun r c =>
      if rowComplete game.grid r || colComplete game.grid c then 0 else game.grid r c,
    score := game.score + specScoreDelta (completeRows game.grid + completeCols game.grid) }

/-- A state whose grid has row 0 and column 0 fully occupied and nothing else. -/
def crossState : GameState :=
  { emptyState with grid := fun r c => if r = 0 ∨ c = 0 then 1 else 0 }

/-- The state one move before `crossState`: row 0 and column 0 are occupied
except for their shared cell `(0, 0)`. -/
def preCrossState : GameState :=
  { emptyState with grid := fun r c => if (r = 0 ∨ c = 0) ∧ ¬ (r = 0 ∧ c = 0) then 1 else 0 }

/-- Whether an occupied mask cell of row `y`, among the columns `xs`, lands on
grid cell `(r, c)` for the anchor `(gridX, gridY)`. -/
def rowCovers (block : BlockShape) (gridX gridY : Int) (y : Nat) (xs : List Nat)
    (r c : Fin 10) : Bool :=
  xs.any fun x =>
    block.cellAt y x &&
      decide ((r.val : Int) = gridY + (y : Int) ∧ (c.val : Int) = gridX + (x : Int))

/-- Whether an occupied mask cell, among the rows `ys` and columns `xs`, lands
on grid cell `(r, c)` for the anchor `(gridX, gridY)`. -/
def cellsCover (block : BlockShape) (gridX gridY : Int) (ys xs : List Nat)
    (r c : Fin 10) : Bool :=
  ys.any fun y => rowCovers block gridX gridY y xs r c

/-- Whether grid cell `(r, c)` is covered by an occupied mask cell inside the
bounding box of `block` anchored at `(gridX, gridY)`. -/
def covers (block : BlockShape) (gridX gridY : Int) (r c : Fin 10) : Bool :=
  cellsCover block gridX gridY (List.range block.height.toNat) (List.range block.width.toNat) r c

/-- The state with the cells selected by `cov` set to `colorIndex` and to the
colour pair of `block`. -/
def paintCells (game : GameState) (block : BlockShape) (colorIndex : Int)
    (cov : Fin 10 → Fin 10 → Bool) : GameState :=
  { game with
    grid := fun r c => if cov r c then colorIndex else game.grid r c,
    gridColors := fun r c k =>
      if cov r c then (if k = 0 then block.colorStart else block.colorEnd)
      else game.gridColors r c k }

/-- The last step of `PlaceBlock`: set `gameOver` when the scan found no placement. -/
def markGameOver (game : GameState) : GameState :=
  if !canPlaceAny game then { game with gameOver := true } else game

/-- The states the game can be in: the result of `InitGame` on any prior
memory content, followed by any number of `UpdateGame` frames, or of
`PlaceBlock` calls made under its precondition. -/
inductive Reachable : GameState → Prop
  | init (prior : GameState) (rands : Fin 3 → Nat) : Reachable (InitGame prior rands)
  | update (game game' : GameState) (inp : FrameInput) :
      Reachable game → UpdateGame game inp = some game' → Reachable game'
  | place (game game' : GameState) (block : BlockShape) (gridX gridY : Int) (rand1 rand2 : Nat) :
      Reachable game → IsValidPlacement game block gridX gridY = true →
      PlaceBlock game block gridX gridY rand1 rand2 = some game' → Reachable game'

/-- A frame in which nothing is pressed and the mouse rests at the origin. -/
def idleInput : FrameInput :=
  { keyR := false, mousePos := ⟨0, 0⟩, cellX := 0, cellY := 0, leftPressed := false,
    leftReleased := false, overSlot := fun _ => false, randColor := 0, randShape := 0,
    randInit := fun _ => 0 }

/-- A terminal state: the empty state with the `gameOver` flag set. -/
def overState : GameState :=
  { emptyState with gameOver := true }

/-- The dragged slot index is inside `0..2` whenever a drag is in progress. -/
def slotOk (game : GameState) : Prop :=
  game.isDragging = true → 0 ≤ game.draggedBlockIndex ∧ game.draggedBlockIndex < 3

/-- Whether the mask of `block` has an occupied cell in the first column, the
first row, the last column and the last row of its (non-empty) bounding box. -/
def touchesAllSides (block : BlockShape) : Bool :=
  decide (0 < block.width) && decide (0 < block.height) &&
  (List.range block.height.toNat).any (fun y => block.cellAt y 0) &&
  (List.range block.width.toNat).any (fun x => block.cellAt 0 x) &&
  (List.range block.height.toNat).any (fun y => block.cellAt y (block.width.toNat - 1)) &&
  (List.range block.width.toNat).any (fun x => block.cellAt (block.height.toNat - 1) x)

/-! # Theorems -/

set_option maxRecDepth 100000

theorem cellAt_fin (block : BlockShape) (y x : Fin 6) :
    block.cellAt y.val x.val = block.cells y x := by
  simp [BlockShape.cellAt, y.isLt, x.isLt]

theorem cellAt_lt (block : BlockShape) (y x : Nat) (h : block.cellAt y x = true) :
    y < 6 ∧ x < 6 := by
  unfold BlockShape.cellAt at h
  split at h
  · assumption
  · simp at h

/-- The loop form of `IsValidPlacement` as a statement about every loop index. -/
theorem IsValidPlacement_iff_loop (game : GameState) (block : BlockShape) (gridX gridY : Int) :
    IsValidPlacement game block gridX gridY = true ↔
      ∀ y x : Nat, (y : Int) < block.height → (x : Int) < block.width →
        block.cellAt y x = true →
          gridAt game.grid (gridY + (y : Int)) (gridX + (x : Int)) = some 0 := by
  unfold IsValidPlacement
  simp only [List.all_eq_true, List.mem_range]
  constructor
  · intro h y x hy hx hc
    have := h y (by omega) x (by omega)
    simp only [hc, if_true] at this
    unfold gridAt
    split at this
    · simp at this
    · rename_i hb
      have hb2 : 0 ≤ gridY + (y : Int) ∧ gridY + (y : Int) < 10 ∧ 0 ≤ gridX + (x : Int) ∧
          gridX + (x : Int) < 10 := by omega
      rw [dif_pos hb2]
      split at this
      · simp at this
      · rename_i h0
        simp only [ne_eq, not_not] at h0
        rw [h0]
  · intro h y hy x hx
    by_cases hc : block.cellAt y x = true
    · have := h y x (by omega) (by omega) hc
      unfold gridAt at this
      simp only [hc, if_true]
      split at this
      · rename_i hb
        have hb2 : ¬ (gridX + (x : Int) < 0 ∨ gridX + (x : Int) ≥ 10 ∨ gridY + (y : Int) < 0 ∨
            gridY + (y : Int) ≥ 10) := by omega
        rw [dif_neg hb2]
        simp only [Option.some.injEq] at this
        simp [this]
      · simp at this
    · simp [hc]

theorem gridAt_eq_some_iff (grid : Fin 10 → Fin 10 → Int) (posY posX v : Int) :
    gridAt grid posY posX = some v ↔
      ∃ r c : Fin 10, (r.val : Int) = posY ∧ (c.val : Int) = posX ∧ grid r c = v := by
  unfold gridAt
  split
  · rename_i h
    simp only [Option.some.injEq]
    constructor
    · intro hv
      exact ⟨⟨posY.toNat, by omega⟩, ⟨posX.toNat, by omega⟩, by simp; omega, by simp; omega, hv⟩
    · rintro ⟨r, c, hr, hc, hv⟩
      have h1 : r = ⟨posY.toNat, by omega⟩ := by ext; simp; omega
      have h2 : c = ⟨posX.toNat, by omega⟩ := by ext; simp; omega
      rw [← h1, ← h2]; exact hv
  · rename_i h
    constructor
    · intro hv
      cases hv
    · rintro ⟨r, c, hr, hc, _⟩
      have := r.isLt
      have := c.isLt
      omega

theorem gridAt_some_bounds (grid : Fin 10 → Fin 10 → Int) (posY posX v : Int)
    (h : gridAt grid posY posX = some v) :
    0 ≤ posY ∧ posY < 10 ∧ 0 ≤ posX ∧ posX < 10 := by
  unfold gridAt at h
  split at h
  · assumption
  · cases h

/-! ## Placement validity -/

/-- C1: for every grid, every shape and every integer anchor, `IsValidPlacement`
returns true exactly when every occupied mask cell `(x, y)` of the 6x6 mask
with `x < width`, `y < height` lands at a position inside `[0,10) x [0,10)`
whose grid cell is `0`; an occupied mask cell landing outside the grid makes
it return false; and a negative anchor alone does not: the shape `cornerShape`
is accepted at anchor `(-1, -1)` on the empty grid.  The statement needs no
bound on `width` and `height`, so it covers `0 ≤ width, height ≤ 6`.  The
function is a pure function to `Bool`, so it changes no state. -/
theorem IsValidPlacement_spec (game : GameState) (block : BlockShape) (gridX gridY : Int) :
    (IsValidPlacement game block gridX gridY = true ↔
      ∀ y x : Fin 6, (x.val : Int) < block.width → (y.val : Int) < block.height →
        block.cells y x = true →
          0 ≤ gridX + (x.val : Int) ∧ gridX + (x.val : Int) < 10 ∧
          0 ≤ gridY + (y.val : Int) ∧ gridY + (y.val : Int) < 10 ∧
          gridAt game.grid (gridY + (y.val : Int)) (gridX + (x.val : Int)) = some 0) ∧
    ((∃ y x : Fin 6, (x.val : Int) < block.width ∧ (y.val : Int) < block.height ∧
        block.cells y x = true ∧
        ¬ (0 ≤ gridX + (x.val : Int) ∧ gridX + (x.val : Int) < 10 ∧
           0 ≤ gridY + (y.val : Int) ∧ gridY + (y.val : Int) < 10)) →
      IsValidPlacement game block gridX gridY = false) ∧
    IsValidPlacement emptyState cornerShape (-1) (-1) = true := by
  have key : IsValidPlacement game block gridX gridY = true ↔
      ∀ y x : Fin 6, (x.val : Int) < block.width → (y.val : Int) < block.height →
        block.cells y x = true →
          0 ≤ gridX + (x.val : Int) ∧ gridX + (x.val : Int) < 10 ∧
          0 ≤ gridY + (y.val : Int) ∧ gridY + (y.val : Int) < 10 ∧
          gridAt game.grid (gridY + (y.val : Int)) (gridX + (x.val : Int)) = some 0 := by
    rw [IsValidPlacement_iff_loop]
    constructor
    · intro h y x hx hy hc
      have h0 := h y.val x.val hy hx (by rw [cellAt_fin]; exact hc)
      have hb := gridAt_some_bounds _ _ _ _ h0
      exact ⟨hb.2.2.1, hb.2.2.2, hb.1, hb.2.1, h0⟩
    · intro h y x hy hx hc
      have hlt := cellAt_lt block y x hc
      have := h ⟨y, hlt.1⟩ ⟨x, hlt.2⟩ hx hy (by rw [← cellAt_fin]; exact hc)
      exact this.2.2.2.2
  refine ⟨key, ?_, by decide⟩
  rintro ⟨y, x, hx, hy, hc, hout⟩
  cases hv : IsValidPlacement game block gridX gridY
  · rfl
  · exfalso
    have := key.1 hv y x hx hy hc
    exact hout ⟨this.1, this.2.1, this.2.2.1, this.2.2.2.1⟩

/-! ## The shape library -/

/-- C6 as stated fails: the fifth library entry, the T shape (3 wide, 2 tall),
has 4 occupied cells, not 5. -/
theorem ShapeLibrary_T_shape_not_five_cells :
    (ShapeLibrary.map fun b => (b.width, b.height, occupiedCount b)).get? 4 = some (3, 2, 4) ∧
    ShapeLibrary.map occupiedCount ≠ [1, 4, 4, 4, 5, 6, 6] := by
  decide

/-- C6 (amended): `ShapeLibrary` has exactly 7 entries; their bounding boxes
(width, height) and masks inside the bounding box are, in order, a single cell,
a 2x2 square, an L shape 2 wide and 3 tall, a vertical line 1 wide and 4 tall,
a T shape 3 wide and 2 tall, a horizontal line 6 wide and 1 tall, a vertical
line 1 wide and 6 tall; the occupied-cell counts are 1, 4, 4, 4, 4, 6, 6. -/
theorem ShapeLibrary_catalog :
    ShapeLibrary.length = 7 ∧
    (ShapeLibrary.map fun b => (b.width, b.height, maskRows b)) =
      [ (1, 1, [[true]]),
        (2, 2, [[true, true], [true, true]]),
        (2, 3, [[true, false], [true, false], [true, true]]),
        (1, 4, [[true], [true], [true], [true]]),
        (3, 2, [[true, true, true], [false, true, false]]),
        (6, 1, [[true, true, true, true, true, true]]),
        (1, 6, [[true], [true], [true], [true], [true], [true]]) ] ∧
    ShapeLibrary.map occupiedCount = [1, 4, 4, 4, 4, 6, 6] := by
  decide

theorem drawShape_mem (r : Nat) : drawShape r ∈ ShapeLibrary :=
  List.get_mem _ _ _

/-! ## Initialisation -/

theorem finRange_three : List.finRange 3 = [0, 1, 2] := by decide

theorem foldl_setCell_row (y : Fin 10) (xs : List (Fin 10)) (g : Fin 10 → Fin 10 → Int)
    (r c : Fin 10) :
    (xs.foldl (fun g x => setCell g y x 0) g) r c = if r = y ∧ c ∈ xs then 0 else g r c := by
  induction xs generalizing g with
  | nil => simp
  | cons x xs ih =>
    rw [List.foldl_cons, ih]
    by_cases h1 : r = y <;> by_cases h2 : c ∈ xs <;> by_cases h3 : c = x <;>
      simp [setCell, h1, h2, h3]

theorem foldl_setCell_col (x : Fin 10) (ys : List (Fin 10)) (g : Fin 10 → Fin 10 → Int)
    (r c : Fin 10) :
    (ys.foldl (fun g y => setCell g y x 0) g) r c = if r ∈ ys ∧ c = x then 0 else g r c := by
  induction ys generalizing g with
  | nil => simp
  | cons y ys ih =>
    rw [List.foldl_cons, ih]
    by_cases h1 : c = x <;> by_cases h2 : r ∈ ys <;> by_cases h3 : r = y <;>
      simp [setCell, h1, h2, h3]

theorem clearRow_apply (g : Fin 10 → Fin 10 → Int) (y r c : Fin 10) :
    clearRow g y r c = if r = y then 0 else g r c := by
  unfold clearRow
  rw [foldl_setCell_row]
  simp [List.mem_finRange]

theorem clearCol_apply (g : Fin 10 → Fin 10 → Int) (x r c : Fin 10) :
    clearCol g x r c = if c = x then 0 else g r c := by
  unfold clearCol
  rw [foldl_setCell_col]
  simp [List.mem_finRange]

theorem foldl_clearRow (ys : List (Fin 10)) (g : Fin 10 → Fin 10 → Int) (r c : Fin 10) :
    (ys.foldl (fun g y => clearRow g y) g) r c = if r ∈ ys then 0 else g r c := by
  induction ys generalizing g with
  | nil => simp
  | cons y ys ih =>
    rw [List.foldl_cons, ih, clearRow_apply]
    by_cases h2 : r ∈ ys <;> by_cases h3 : r = y <;> simp [h2, h3]

theorem GenerateRandomBlocks_eq (game : GameState) (rands : Fin 3 → Nat) :
    GenerateRandomBlocks game rands =
      { game with currentBlocks := fun i => drawShape (rands i) } := by
  unfold GenerateRandomBlocks
  rw [finRange_three]
  simp only [List.foldl_cons, List.foldl_nil]
  congr 1
  funext j
  fin_cases j <;> simp

theorem InitGame_grid (game : GameState) (rands : Fin 3 → Nat) (y x : Fin 10) :
    (InitGame game rands).grid y x = 0 := by
  unfold InitGame
  rw [GenerateRandomBlocks_eq]
  show ((List.finRange 10).foldl (fun g y => clearRow g y) game.grid) y x = 0
  rw [foldl_clearRow]
  simp [List.mem_finRange]

/-- C8: for every prior state and every outcome of the three random draws,
after `InitGame` all 100 grid cells are `0`, the score is `0`, `gameOver` and
`isDragging` are false, and each of the three offered-block slots holds an
entry of `ShapeLibrary` (the one selected by its draw). -/
theorem InitGame_spec (game : GameState) (rands : Fin 3 → Nat) :
    (∀ y x : Fin 10, (InitGame game rands).grid y x = 0) ∧
    (InitGame game rands).score = 0 ∧
    (InitGame game rands).gameOver = false ∧
    (InitGame game rands).isDragging = false ∧
    (∀ i : Fin 3, (InitGame game rands).currentBlocks i = drawShape (rands i) ∧
      (InitGame game rands).currentBlocks i ∈ ShapeLibrary) := by
  refine ⟨InitGame_grid game rands, ?_, ?_, ?_, ?_⟩
  · simp [InitGame, GenerateRandomBlocks_eq]
  · simp [InitGame, GenerateRandomBlocks_eq]
  · simp [InitGame, GenerateRandomBlocks_eq]
  · intro i
    simp [InitGame, GenerateRandomBlocks_eq, drawShape_mem]

/-! ## Line clearing -/

theorem rowComplete_iff (g : Fin 10 → Fin 10 → Int) (y : Fin 10) :
    rowComplete g y = true ↔ ∀ x, g y x ≠ 0 := by
  simp [rowComplete, List.all_eq_true, List.mem_finRange]

theorem colComplete_iff (g : Fin 10 → Fin 10 → Int) (x : Fin 10) :
    colComplete g x = true ↔ ∀ y, g y x ≠ 0 := by
  simp [colComplete, List.all_eq_true, List.mem_finRange]

theorem rowComplete_congr (g1 g2 : Fin 10 → Fin 10 → Int) (y : Fin 10)
    (h : ∀ x, g1 y x = g2 y x) : rowComplete g1 y = rowComplete g2 y := by
  unfold rowComplete
  congr 1
  funext x
  rw [h x]

theorem colComplete_congr (g1 g2 : Fin 10 → Fin 10 → Int) (x : Fin 10)
    (h : ∀ y, g1 y x = g2 y x) : colComplete g1 x = colComplete g2 x := by
  unfold colComplete
  congr 1
  funext y
  rw [h y]

theorem rowPass_spec (ys : List (Fin 10)) (hnd : ys.Nodup) (g : Fin 10 → Fin 10 → Int)
    (n : Int) :
    rowPass ys (g, n) =
      (fun r c => if r ∈ ys ∧ rowComplete g r = true then 0 else g r c,
        n + ((ys.countP (rowComplete g) : Nat) : Int)) := by
  induction ys generalizing g n with
  | nil => simp [rowPass]
  | cons y ys ih =>
    have hy : y ∉ ys := (List.nodup_cons.1 hnd).1
    have hnd2 : ys.Nodup := (List.nodup_cons.1 hnd).2
    have hne : ∀ r ∈ ys, r ≠ y := fun r hr e => hy (e ▸ hr)
    show rowPass ys (rowStep (g, n) y) = _
    unfold rowStep
    by_cases hc : rowComplete g y = true
    · simp only [hc, if_true]
      rw [ih hnd2]
      have hcong : ∀ r ∈ ys, rowComplete (clearRow g y) r = rowComplete g r := by
        intro r hr
        apply rowComplete_congr
        intro x
        rw [clearRow_apply, if_neg (hne r hr)]
      have hcount : ys.countP (rowComplete (clearRow g y)) = ys.countP (rowComplete g) := by
        apply List.countP_congr
        intro r hr
        rw [hcong r hr]
      rw [hcount, List.countP_cons_of_pos _ _ hc]
      refine Prod.ext ?_ ?_
      · funext r c
        simp only [List.mem_cons]
        by_cases hr : r ∈ ys
        · simp [hr, hcong r hr, clearRow_apply, hne r hr]
        · by_cases hry : r = y
          · subst hry
            simp [hr, hc, clearRow_apply]
          · simp [hr, hry, clearRow_apply]
      · simp only [Nat.cast_add, Nat.cast_one]
        omega
    · simp only [hc]
      rw [ih hnd2, List.countP_cons_of_neg _ _ hc]
      refine Prod.ext ?_ rfl
      funext r c
      simp only [List.mem_cons]
      by_cases hr : r ∈ ys
      · simp [hr]
      · by_cases hry : r = y
        · subst hry
          simp [hr, hc]
        · simp [hr, hry]

theorem colPass_spec (xs : List (Fin 10)) (hnd : xs.Nodup) (g : Fin 10 → Fin 10 → Int)
    (n : Int) :
    colPass xs (g, n) =
      (fun r c => if c ∈ xs ∧ colComplete g c = true then 0 else g r c,
        n + ((xs.countP (colComplete g) : Nat) : Int)) := by
  induction xs generalizing g n with
  | nil => simp [colPass]
  | cons x xs ih =>
    have hx : x ∉ xs := (List.nodup_cons.1 hnd).1
    have hnd2 : xs.Nodup := (List.nodup_cons.1 hnd).2
    have hne : ∀ c ∈ xs, c ≠ x := fun c hc e => hx (e ▸ hc)
    show colPass xs (colStep (g, n) x) = _
    unfold colStep
    by_cases hc : colComplete g x = true
    · simp only [hc, if_true]
      rw [ih hnd2]
      have hcong : ∀ c ∈ xs, colComplete (clearCol g x) c = colComplete g c := by
        intro c hcm
        apply colComplete_congr
        intro y
        rw [clearCol_apply, if_neg (hne c hcm)]
      have hcount : xs.countP (colComplete (clearCol g x)) = xs.countP (colComplete g) := by
        apply List.countP_congr
        intro c hcm
        rw [hcong c hcm]
      rw [hcount, List.countP_cons_of_pos _ _ hc]
      refine Prod.ext ?_ ?_
      · funext r c
        simp only [List.mem_cons]
        by_cases hcm : c ∈ xs
        · simp [hcm, hcong c hcm, clearCol_apply, hne c hcm]
        · by_cases hcx : c = x
          · subst hcx
            simp [hcm, hc, clearCol_apply]
          · simp [hcm, hcx, clearCol_apply]
      · simp only [Nat.cast_add, Nat.cast_one]
        omega
    · simp only [hc]
      rw [ih hnd2, List.countP_cons_of_neg _ _ hc]
      refine Prod.ext ?_ rfl
      funext r c
      simp only [List.mem_cons]
      by_cases hcm : c ∈ xs
      · simp [hcm]
      · by_cases hcx : c = x
        · subst hcx
          simp [hcm, hc]
        · simp [hcm, hcx]

/-- The result of `CheckAndClearLines` in closed form: complete rows are
emptied, then the columns complete in the resulting grid are emptied, and the
line count is the sum of the two counts. -/
theorem CheckAndClearLines_eq (game : GameState) :
    CheckAndClearLines game =
      { game with
        grid := colsEmptied (rowsEmptied game.grid),
        score := awardPoints game.score
          (((completeRows game.grid + completeCols (rowsEmptied game.grid) : Nat)) : Int) } := by
  unfold CheckAndClearLines
  rw [rowPass_spec _ (List.nodup_finRange 10), colPass_spec _ (List.nodup_finRange 10)]
  simp only [List.mem_finRange, true_and, zero_add]
  have hg : (fun r c => if colComplete
        (fun r c => if rowComplete game.grid r = true then (0 : Int) else game.grid r c) c = true
      then (0 : Int)
      else (fun r c => if rowComplete game.grid r = true then (0 : Int) else game.grid r c) r c) =
      colsEmptied (rowsEmptied game.grid) := rfl
  have hr : (fun r c => if rowComplete game.grid r = true then (0 : Int) else game.grid r c) =
      rowsEmptied game.grid := rfl
  rw [hg, hr]
  simp only [completeRows, completeCols, Nat.cast_add]

theorem awardPoints_eq (score : Int) (n : Nat) :
    awardPoints score (n : Int) = score + specScoreDelta n := by
  unfold awardPoints specScoreDelta
  by_cases h1 : n = 1
  · subst h1; simp
  · by_cases h2 : n = 2
    · subst h2; simp
    · by_cases h0 : n = 0
      · subst h0; simp
      · have h3 : (n : Int) ≥ 3 := by omega
        have e1 : ¬ ((n : Int) = 1) := by omega
        have e2 : ¬ ((n : Int) = 2) := by omega
        simp [h0, h1, h2, h3, e1, e2]

theorem completeRows_eq_zero (g : Fin 10 → Fin 10 → Int) :
    completeRows g = 0 ↔ ∀ y, rowComplete g y = false := by
  simp [completeRows, List.countP_eq_zero, List.mem_finRange]

theorem completeCols_eq_zero (g : Fin 10 → Fin 10 → Int) :
    completeCols g = 0 ↔ ∀ x, colComplete g x = false := by
  simp [completeCols, List.countP_eq_zero, List.mem_finRange]

theorem rowsEmptied_of_none (g : Fin 10 → Fin 10 → Int) (h : ∀ y, rowComplete g y = false) :
    rowsEmptied g = g := by
  funext r c
  simp [rowsEmptied, h r]

theorem colsEmptied_of_none (g : Fin 10 → Fin 10 → Int) (h : ∀ x, colComplete g x = false) :
    colsEmptied g = g := by
  funext r c
  simp [colsEmptied, h c]

/-- A column that is complete after the rows were emptied was complete before,
and no row was emptied. -/
theorem colComplete_rowsEmptied (g : Fin 10 → Fin 10 → Int) (x : Fin 10)
    (h : colComplete (rowsEmptied g) x = true) :
    colComplete g x = true ∧ ∀ y, rowComplete g y = false := by
  rw [colComplete_iff] at h
  have hrow : ∀ y, rowComplete g y = false := by
    intro y
    have := h y
    cases hc : rowComplete g y
    · rfl
    · simp [rowsEmptied, hc] at this
  refine ⟨?_, hrow⟩
  rw [colComplete_iff]
  intro y
  have := h y
  simpa [rowsEmptied, hrow y] using this

theorem completeCols_rowsEmptied_of_none (g : Fin 10 → Fin 10 → Int)
    (h : ∀ x, colComplete g x = false) : completeCols (rowsEmptied g) = 0 := by
  rw [completeCols_eq_zero]
  intro x
  cases hc : colComplete (rowsEmptied g) x
  · rfl
  · have := (colComplete_rowsEmptied g x hc).1
    rw [h x] at this
    cases this

/-- The code agrees with the snapshot reference whenever the pre-clear grid
has no complete row or has no complete column. -/
theorem CheckAndClearLines_eq_spec (game : GameState)
    (h : completeRows game.grid = 0 ∨ completeCols game.grid = 0) :
    CheckAndClearLines game = specCheckAndClearLines game := by
  rw [CheckAndClearLines_eq, awardPoints_eq]
  unfold specCheckAndClearLines
  rcases h with h | h
  · have hr := (completeRows_eq_zero _).1 h
    rw [rowsEmptied_of_none _ hr]
    congr 1
    funext r c
    simp [colsEmptied, hr r]
  · have hcz := (completeCols_eq_zero _).1 h
    rw [completeCols_rowsEmptied_of_none _ hcz, h,
      colsEmptied_of_none _ ((completeCols_eq_zero _).1 (completeCols_rowsEmptied_of_none _ hcz))]
    congr 1
    funext r c
    simp [rowsEmptied, hcz c]

/-- C2 fails on the code: with row 0 and column 0 both fully occupied in the
pre-clear grid, `CheckAndClearLines` empties the row only, leaves the other
nine cells of column 0 occupied and adds 100, while the snapshot reference
empties both lines and adds 300.  The same outcome arises when `PlaceBlock`
puts the single-cell shape on the shared cell `(0, 0)`. -/
theorem CheckAndClearLines_cross_diverges :
    rowComplete crossState.grid 0 = true ∧ colComplete crossState.grid 0 = true ∧
    (CheckAndClearLines crossState).score = crossState.score + 100 ∧
    (specCheckAndClearLines crossState).score = crossState.score + 300 ∧
    (∀ r : Fin 10, r ≠ 0 → (CheckAndClearLines crossState).grid r 0 = 1) ∧
    (∀ r : Fin 10, (specCheckAndClearLines crossState).grid r 0 = 0) ∧
    CheckAndClearLines crossState ≠ specCheckAndClearLines crossState ∧
    IsValidPlacement preCrossState (drawShape 0) 0 0 = true ∧
    (PlaceBlock preCrossState (drawShape 0) 0 0 0 0).map
      (fun g => (g.score, g.grid 0 0, g.grid 0 9, g.grid 5 0)) =
      some (preCrossState.score + 100, 0, 0, 1) := by
  have hne : CheckAndClearLines crossState ≠ specCheckAndClearLines crossState := by
    intro h
    have : (CheckAndClearLines crossState).score = (specCheckAndClearLines crossState).score := by
      rw [h]
    revert this
    decide
  refine ⟨by decide, by decide, by decide, by decide, by decide, by decide, hne, by decide, ?_⟩
  decide

/-- The grid that `CheckAndClearLines` produces has no fully occupied row and
no fully occupied column. -/
theorem CheckAndClearLines_no_complete (game : GameState) :
    (∀ y, rowComplete (CheckAndClearLines game).grid y = false) ∧
    (∀ x, colComplete (CheckAndClearLines game).grid x = false) := by
  rw [CheckAndClearLines_eq]
  show (∀ y, rowComplete (colsEmptied (rowsEmptied game.grid)) y = false) ∧
    (∀ x, colComplete (colsEmptied (rowsEmptied game.grid)) x = false)
  constructor
  · intro y
    cases hc : rowComplete (colsEmptied (rowsEmptied game.grid)) y
    · rfl
    · exfalso
      rw [rowComplete_iff] at hc
      have h1 : ∀ x, rowsEmptied game.grid y x ≠ 0 := by
        intro x
        have := hc x
        unfold colsEmptied at this
        split at this
        · exact absurd rfl this
        · exact this
      have h2 : rowComplete game.grid y = false := by
        cases hr : rowComplete game.grid y
        · rfl
        · have := h1 0
          simp [rowsEmptied, hr] at this
      have h3 : rowComplete game.grid y = true := by
        rw [rowComplete_iff]
        intro x
        have := h1 x
        simpa [rowsEmptied, h2] using this
      rw [h2] at h3
      cases h3
  · intro x
    cases hc : colComplete (colsEmptied (rowsEmptied game.grid)) x
    · rfl
    · exfalso
      rw [colComplete_iff] at hc
      have h2 : colComplete (rowsEmptied game.grid) x = false := by
        cases hr : colComplete (rowsEmptied game.grid) x
        · rfl
        · have := hc 0
          simp [colsEmptied, hr] at this
      have h3 : colComplete (rowsEmptied game.grid) x = true := by
        rw [colComplete_iff]
        intro y
        have := hc y
        simpa [colsEmptied, h2] using this
      rw [h2] at h3
      cases h3

/-! ## Placement -/

theorem paintCells_none (game : GameState) (block : BlockShape) (ci : Int) :
    paintCells game block ci (fun _ _ => false) = game := by
  cases game
  simp [paintCells]

theorem paintCells_paintCells (game : GameState) (block : BlockShape) (ci : Int)
    (cov1 cov2 cov : Fin 10 → Fin 10 → Bool)
    (h : ∀ r c, cov r c = (cov1 r c || cov2 r c)) :
    paintCells (paintCells game block ci cov1) block ci cov2 = paintCells game block ci cov := by
  unfold paintCells
  simp only [GameState.mk.injEq, and_true, true_and]
  constructor
  · funext r c
    rw [h r c]
    cases cov1 r c <;> cases cov2 r c <;> simp
  · funext r c k
    rw [h r c]
    cases cov1 r c <;> cases cov2 r c <;> simp

theorem writeCell_some (game game' : GameState) (block : BlockShape) (ci posY posX : Int)
    (h : writeCell game block ci posY posX = some game') :
    (0 ≤ posY ∧ posY < 10 ∧ 0 ≤ posX ∧ posX < 10) ∧
    game' = paintCells game block ci
      (fun r c => decide ((r.val : Int) = posY ∧ (c.val : Int) = posX)) := by
  unfold writeCell at h
  split at h
  · rename_i hb
    refine ⟨hb, ?_⟩
    simp only [Option.some.injEq] at h
    rw [← h]
    unfold paintCells
    simp only [GameState.mk.injEq, and_true, true_and]
    have hiff : ∀ r c : Fin 10,
        (r = (⟨posY.toNat, by omega⟩ : Fin 10) ∧ c = (⟨posX.toNat, by omega⟩ : Fin 10)) ↔
          ((r.val : Int) = posY ∧ (c.val : Int) = posX) := by
      intro r c
      rw [Fin.ext_iff, Fin.ext_iff]
      simp only
      omega
    constructor
    · funext r c
      simp only [setCell, hiff r c, decide_eq_true_eq]
    · funext r c k
      simp only [setColors, hiff r c, decide_eq_true_eq]
  · cases h

theorem writeCell_ok (game : GameState) (block : BlockShape) (ci posY posX : Int)
    (hb : 0 ≤ posY ∧ posY < 10 ∧ 0 ≤ posX ∧ posX < 10) :
    ∃ game', writeCell game block ci posY posX = some game' := by
  unfold writeCell
  rw [dif_pos hb]
  exact ⟨_, rfl⟩

theorem placeRow_cons (block : BlockShape) (ci gridX gridY : Int) (y x : Nat) (xs : List Nat)
    (game : GameState) :
    placeRow block ci gridX gridY y (x :: xs) game =
      (if block.cellAt y x then
          writeCell game block ci (gridY + (y : Int)) (gridX + (x : Int))
        else some game).bind (placeRow block ci gridX gridY y xs) := by
  unfold placeRow
  rw [List.foldlM_cons]
  rfl

theorem placeRow_some (block : BlockShape) (ci gridX gridY : Int) (y : Nat) (xs : List Nat)
    (game game' : GameState) (h : placeRow block ci gridX gridY y xs game = some game') :
    game' = paintCells game block ci (rowCovers block gridX gridY y xs) := by
  induction xs generalizing game with
  | nil =>
    have : game' = game := by
      simp [placeRow] at h
      exact h.symm
    rw [this]
    exact (paintCells_none game block ci).symm
  | cons x xs ih =>
    rw [placeRow_cons] at h
    by_cases hc : block.cellAt y x = true
    · simp only [hc, if_true] at h
      cases hw : writeCell game block ci (gridY + (y : Int)) (gridX + (x : Int)) with
      | none => rw [hw] at h; cases h
      | some g1 =>
        rw [hw] at h
        have h1 := (writeCell_some _ _ _ _ _ _ hw).2
        have h2 := ih g1 h
        rw [h2, h1]
        apply paintCells_paintCells
        intro r c
        simp [rowCovers, hc]
    · simp only [hc] at h
      have h2 := ih game h
      rw [h2]
      congr 1
      funext r c
      simp [rowCovers, hc]

theorem placeRow_ok (block : BlockShape) (ci gridX gridY : Int) (y : Nat) (xs : List Nat)
    (game : GameState)
    (hb : ∀ x ∈ xs, block.cellAt y x = true →
      0 ≤ gridY + (y : Int) ∧ gridY + (y : Int) < 10 ∧
      0 ≤ gridX + (x : Int) ∧ gridX + (x : Int) < 10) :
    ∃ game', placeRow block ci gridX gridY y xs game = some game' := by
  induction xs generalizing game with
  | nil => exact ⟨game, by simp [placeRow]⟩
  | cons x xs ih =>
    rw [placeRow_cons]
    have ih2 := fun g => ih g (fun x2 hx2 => hb x2 (List.mem_cons_of_mem _ hx2))
    by_cases hc : block.cellAt y x = true
    · simp only [hc, if_true]
      obtain ⟨g1, hg1⟩ := writeCell_ok game block ci _ _ (hb x (List.mem_cons_self _ _) hc)
      rw [hg1]
      exact ih2 g1
    · simp only [hc]
      exact ih2 game

theorem placeCells_cons (block : BlockShape) (ci gridX gridY : Int) (y : Nat) (ys xs : List Nat)
    (game : GameState) :
    placeCells block ci gridX gridY (y :: ys) xs game =
      (placeRow block ci gridX gridY y xs game).bind (placeCells block ci gridX gridY ys xs) := by
  unfold placeCells
  rw [List.foldlM_cons]
  rfl

theorem placeCells_some (block : BlockShape) (ci gridX gridY : Int) (ys xs : List Nat)
    (game game' : GameState) (h : placeCells block ci gridX gridY ys xs game = some game') :
    game' = paintCells game block ci (cellsCover block gridX gridY ys xs) := by
  induction ys generalizing game with
  | nil =>
    have : game' = game := by
      simp [placeCells] at h
      exact h.symm
    rw [this]
    exact (paintCells_none game block ci).symm
  | cons y ys ih =>
    rw [placeCells_cons] at h
    cases hr : placeRow block ci gridX gridY y xs game with
    | none => rw [hr] at h; cases h
    | some g1 =>
      rw [hr] at h
      have h1 := placeRow_some _ _ _ _ _ _ _ _ hr
      have h2 := ih g1 h
      rw [h2, h1]
      apply paintCells_paintCells
      intro r c
      simp [cellsCover]

theorem placeCells_ok (block : BlockShape) (ci gridX gridY : Int) (ys xs : List Nat)
    (game : GameState)
    (hb : ∀ y ∈ ys, ∀ x ∈ xs, block.cellAt y x = true →
      0 ≤ gridY + (y : Int) ∧ gridY + (y : Int) < 10 ∧
      0 ≤ gridX + (x : Int) ∧ gridX + (x : Int) < 10) :
    ∃ game', placeCells block ci gridX gridY ys xs game = some game' := by
  induction ys generalizing game with
  | nil => exact ⟨game, by simp [placeCells]⟩
  | cons y ys ih =>
    rw [placeCells_cons]
    obtain ⟨g1, hg1⟩ := placeRow_ok block ci gridX gridY y xs game (hb y (List.mem_cons_self _ _))
    rw [hg1]
    exact ih g1 (fun y2 hy2 => hb y2 (List.mem_cons_of_mem _ hy2))

theorem covers_iff (block : BlockShape) (gridX gridY : Int) (r c : Fin 10) :
    covers block gridX gridY r c = true ↔
      ∃ y x : Nat, (y : Int) < block.height ∧ (x : Int) < block.width ∧
        block.cellAt y x = true ∧
        (r.val : Int) = gridY + (y : Int) ∧ (c.val : Int) = gridX + (x : Int) := by
  unfold covers cellsCover rowCovers
  simp only [List.any_eq_true, List.mem_range, Bool.and_eq_true, decide_eq_true_eq]
  constructor
  · rintro ⟨y, hy, x, hx, hc, hr, hcc⟩
    exact ⟨y, x, by omega, by omega, hc, hr, hcc⟩
  · rintro ⟨y, x, hy, hx, hc, hr, hcc⟩
    exact ⟨y, by omega, x, by omega, hc, hr, hcc⟩

theorem refillSlot_some (game game' : GameState) (shape : BlockShape)
    (h : refillSlot game shape = some game') :
    (0 ≤ game.draggedBlockIndex ∧ game.draggedBlockIndex < 3) ∧
    game'.grid = game.grid ∧ game'.gridColors = game.gridColors ∧
    game'.score = game.score ∧ game'.gameOver = game.gameOver ∧
    game'.isDragging = false ∧ game'.draggedBlockIndex = game.draggedBlockIndex ∧
    game'.dragPosition = game.dragPosition ∧
    (∀ j : Fin 3, game'.currentBlocks j =
      if (j.val : Int) = game.draggedBlockIndex then shape else game.currentBlocks j) := by
  unfold refillSlot at h
  split at h
  · rename_i hb
    simp only [Option.some.injEq] at h
    subst h
    refine ⟨hb, rfl, rfl, rfl, rfl, rfl, rfl, rfl, ?_⟩
    intro j
    have : (j = (⟨game.draggedBlockIndex.toNat, by omega⟩ : Fin 3)) ↔
        (j.val : Int) = game.draggedBlockIndex := by
      rw [Fin.ext_iff]
      simp only
      omega
    simp only [this]
  · cases h

theorem refillSlot_ok (game : GameState) (shape : BlockShape)
    (hb : 0 ≤ game.draggedBlockIndex ∧ game.draggedBlockIndex < 3) :
    ∃ game', refillSlot game shape = some game' := by
  unfold refillSlot
  rw [dif_pos hb]
  exact ⟨_, rfl⟩

/-- The stages of a returning `PlaceBlock` call: the placement loop gives the
painted state, the slot is refilled, lines are cleared, the game-over flag is set. -/
theorem PlaceBlock_some (game game' : GameState) (block : BlockShape) (gridX gridY : Int)
    (rand1 rand2 : Nat) (h : PlaceBlock game block gridX gridY rand1 rand2 = some game') :
    ∃ filled,
      placeCells block (1 + ((rand1 % 1000 : Nat) : Int)) gridX gridY
        (List.range block.height.toNat) (List.range block.width.toNat) game =
        some (paintCells game block (1 + ((rand1 % 1000 : Nat) : Int))
          (covers block gridX gridY)) ∧
      refillSlot (paintCells game block (1 + ((rand1 % 1000 : Nat) : Int))
        (covers block gridX gridY)) (drawShape rand2) = some filled ∧
      game' = markGameOver (CheckAndClearLines filled) := by
  unfold PlaceBlock at h
  simp only at h
  cases hp : placeCells block (1 + ((rand1 % 1000 : Nat) : Int)) gridX gridY
      (List.range block.height.toNat) (List.range block.width.toNat) game with
  | none => rw [hp] at h; cases h
  | some mid =>
    rw [hp] at h
    simp only at h
    have hmid : mid = paintCells game block (1 + ((rand1 % 1000 : Nat) : Int))
        (covers block gridX gridY) := placeCells_some _ _ _ _ _ _ _ _ hp
    cases hf : refillSlot mid (drawShape rand2) with
    | none => rw [hf] at h; cases h
    | some filled =>
      rw [hf] at h
      simp only at h
      refine ⟨filled, ?_, ?_, ?_⟩
      · rw [hmid]
      · rw [← hmid]; exact hf
      · unfold markGameOver
        split at h
        · rename_i hc
          rw [if_pos hc]
          exact (Option.some.inj h).symm
        · rename_i hc
          rw [if_neg hc]
          exact (Option.some.inj h).symm

theorem IsValidPlacement_bounds (game : GameState) (block : BlockShape) (gridX gridY : Int)
    (hvalid : IsValidPlacement game block gridX gridY = true) :
    ∀ y ∈ List.range block.height.toNat, ∀ x ∈ List.range block.width.toNat,
      block.cellAt y x = true →
        0 ≤ gridY + (y : Int) ∧ gridY + (y : Int) < 10 ∧
        0 ≤ gridX + (x : Int) ∧ gridX + (x : Int) < 10 := by
  intro y hy x hx hc
  rw [List.mem_range] at hy hx
  have := (IsValidPlacement_iff_loop game block gridX gridY).1 hvalid y x (by omega) (by omega) hc
  exact gridAt_some_bounds _ _ _ _ this

theorem PlaceBlock_ok (game : GameState) (block : BlockShape) (gridX gridY : Int)
    (rand1 rand2 : Nat)
    (hidx : 0 ≤ game.draggedBlockIndex ∧ game.draggedBlockIndex < 3)
    (hvalid : IsValidPlacement game block gridX gridY = true) :
    ∃ game', PlaceBlock game block gridX gridY rand1 rand2 = some game' := by
  obtain ⟨mid, hmid⟩ := placeCells_ok block (1 + ((rand1 % 1000 : Nat) : Int)) gridX gridY
    (List.range block.height.toNat) (List.range block.width.toNat) game
    (IsValidPlacement_bounds game block gridX gridY hvalid)
  have hm := placeCells_some _ _ _ _ _ _ _ _ hmid
  have hidx2 : 0 ≤ mid.draggedBlockIndex ∧ mid.draggedBlockIndex < 3 := by
    rw [hm]; exact hidx
  obtain ⟨filled, hfilled⟩ := refillSlot_ok mid (drawShape rand2) hidx2
  unfold PlaceBlock
  simp only [hmid, hfilled]
  split
  · exact ⟨_, rfl⟩
  · exact ⟨_, rfl⟩

theorem IsValidPlacement_congr (g g' : GameState) (block : BlockShape) (gridX gridY : Int)
    (h : g'.grid = g.grid) :
    IsValidPlacement g' block gridX gridY = IsValidPlacement g block gridX gridY := by
  unfold IsValidPlacement
  rw [h]

theorem canPlaceAny_iff (game : GameState) :
    canPlaceAny game = true ↔
      ∃ i : Fin 3, ∃ x y : Fin 10,
        IsValidPlacement game (game.currentBlocks i) (x.val : Int) (y.val : Int) = true := by
  unfold canPlaceAny
  simp only [List.any_eq_true, List.mem_range, List.mem_finRange, true_and]
  constructor
  · rintro ⟨i, y, hy, x, hx, hv⟩
    exact ⟨i, ⟨x, hx⟩, ⟨y, hy⟩, hv⟩
  · rintro ⟨i, x, y, hv⟩
    exact ⟨i, y.val, y.isLt, x.val, x.isLt, hv⟩

theorem markGameOver_fields (game : GameState) :
    (markGameOver game).grid = game.grid ∧
    (markGameOver game).gridColors = game.gridColors ∧
    (markGameOver game).currentBlocks = game.currentBlocks ∧
    (markGameOver game).score = game.score ∧
    (markGameOver game).isDragging = game.isDragging ∧
    (markGameOver game).draggedBlockIndex = game.draggedBlockIndex ∧
    (markGameOver game).dragPosition = game.dragPosition ∧
    (markGameOver game).gameOver = (!canPlaceAny game || game.gameOver) := by
  unfold markGameOver
  cases hc : canPlaceAny game <;> simp

theorem canPlaceAny_markGameOver (game : GameState) :
    canPlaceAny (markGameOver game) = canPlaceAny game := by
  have h := markGameOver_fields game
  unfold canPlaceAny
  rw [h.2.2.1]
  simp only [IsValidPlacement_congr game (markGameOver game) _ _ _ h.1]

/-- C3: a `PlaceBlock` call on a non-terminal state, with a placement that
`IsValidPlacement` accepted and a dragged slot index inside `0..2`, returns a
state whose `gameOver` flag is true exactly when no slot `i` in `{0,1,2}` and
no anchor `(x, y)` with `0 ≤ x, y < 10` passes `IsValidPlacement` on that
returned state, that is on the final grid and the final offered blocks. -/
theorem PlaceBlock_gameOver_iff (game : GameState) (block : BlockShape) (gridX gridY : Int)
    (rand1 rand2 : Nat)
    (hidx : 0 ≤ game.draggedBlockIndex ∧ game.draggedBlockIndex < 3)
    (hover : game.gameOver = false)
    (hvalid : IsValidPlacement game block gridX gridY = true) :
    ∃ game', PlaceBlock game block gridX gridY rand1 rand2 = some game' ∧
      (game'.gameOver = true ↔
        ¬ ∃ i : Fin 3, ∃ x y : Fin 10,
          IsValidPlacement game' (game'.currentBlocks i) (x.val : Int) (y.val : Int) = true) := by
  obtain ⟨game', hg⟩ := PlaceBlock_ok game block gridX gridY rand1 rand2 hidx hvalid
  refine ⟨game', hg, ?_⟩
  obtain ⟨filled, _, hfill, hfin⟩ := PlaceBlock_some _ _ _ _ _ _ _ hg
  have hf := refillSlot_some _ _ _ hfill
  have hgo : (CheckAndClearLines filled).gameOver = false := by
    rw [CheckAndClearLines_eq]
    show filled.gameOver = false
    rw [hf.2.2.2.2.1]
    exact hover
  rw [← canPlaceAny_iff, hfin, canPlaceAny_markGameOver, (markGameOver_fields _).2.2.2.2.2.2.2,
    hgo]
  cases canPlaceAny (CheckAndClearLines filled) <;> simp

/-- Instance of `PlaceBlock_gameOver_iff`: the 2x2 square placed at `(3, 4)` on
the empty grid from slot 0. -/
theorem PlaceBlock_gameOver_iff_witness :
    (0 ≤ emptyState.draggedBlockIndex ∧ emptyState.draggedBlockIndex < 3) ∧
    emptyState.gameOver = false ∧
    IsValidPlacement emptyState (drawShape 1) 3 4 = true ∧
    ∃ game', PlaceBlock emptyState (drawShape 1) 3 4 5 6 = some game' ∧
      (game'.gameOver = true ↔
        ¬ ∃ i : Fin 3, ∃ x y : Fin 10,
          IsValidPlacement game' (game'.currentBlocks i) (x.val : Int) (y.val : Int) = true) :=
  ⟨by decide, by decide, by decide,
    PlaceBlock_gameOver_iff emptyState (drawShape 1) 3 4 5 6 (by decide) (by decide) (by decide)⟩

theorem rowPass_grid (g : Fin 10 → Fin 10 → Int) :
    (rowPass (List.finRange 10) (g, 0)).1 = rowsEmptied g := by
  rw [rowPass_spec _ (List.nodup_finRange 10)]
  funext r c
  simp [rowsEmptied, List.mem_finRange]

theorem covers_empty (game : GameState) (block : BlockShape) (gridX gridY : Int)
    (hvalid : IsValidPlacement game block gridX gridY = true) (r c : Fin 10)
    (hcov : covers block gridX gridY r c = true) : game.grid r c = 0 := by
  obtain ⟨y, x, hy, hx, hc, hr, hcc⟩ := (covers_iff _ _ _ _ _).1 hcov
  have h0 := (IsValidPlacement_iff_loop game block gridX gridY).1 hvalid y x hy hx hc
  obtain ⟨r2, c2, hr2, hc2, hv⟩ := (gridAt_eq_some_iff _ _ _ _).1 h0
  have e1 : r2 = r := by ext; omega
  have e2 : c2 = c := by ext; omega
  rw [← e1, ← e2]
  exact hv

/-- C4: for a placement that `IsValidPlacement` accepted (and a dragged slot
index inside `0..2`), `PlaceBlock` returns a state `game'`; `mid` is the state
after its placement loop.  Every cell covered by an occupied mask cell was
empty, is non-zero in `mid`, stores the colour pair of the block in `game'`,
and is non-zero in `game'` unless its row was emptied (the row is complete in
`mid`) or its column was emptied (the column is complete after the horizontal
loop).  Every cell not covered keeps its colour pair, and keeps its grid value
unless its row or column was emptied.  Cells of emptied rows and columns are
`0`.  When `mid` has no complete row and no complete column, the covered cells
go from `0` to non-zero and every other cell keeps its grid value. -/
theorem PlaceBlock_frame (game : GameState) (block : BlockShape) (gridX gridY : Int)
    (rand1 rand2 : Nat)
    (hidx : 0 ≤ game.draggedBlockIndex ∧ game.draggedBlockIndex < 3)
    (hvalid : IsValidPlacement game block gridX gridY = true) :
    ∃ mid game',
      placeCells block (1 + ((rand1 % 1000 : Nat) : Int)) gridX gridY
        (List.range block.height.toNat) (List.range block.width.toNat) game = some mid ∧
      PlaceBlock game block gridX gridY rand1 rand2 = some game' ∧
      (∀ r c, covers block gridX gridY r c = true → game.grid r c = 0 ∧ mid.grid r c ≠ 0) ∧
      (∀ r c, covers block gridX gridY r c = false → mid.grid r c = game.grid r c) ∧
      (∀ r c, covers block gridX gridY r c = true →
        game'.gridColors r c 0 = block.colorStart ∧ game'.gridColors r c 1 = block.colorEnd ∧
        (rowComplete mid.grid r = false →
          colComplete (rowPass (List.finRange 10) (mid.grid, 0)).1 c = false →
            game'.grid r c ≠ 0)) ∧
      (∀ r c, covers block gridX gridY r c = false →
        game'.gridColors r c = game.gridColors r c ∧
        (rowComplete mid.grid r = false →
          colComplete (rowPass (List.finRange 10) (mid.grid, 0)).1 c = false →
            game'.grid r c = game.grid r c)) ∧
      (∀ r c, rowComplete mid.grid r = true ∨
          colComplete (rowPass (List.finRange 10) (mid.grid, 0)).1 c = true →
        game'.grid r c = 0) ∧
      ((∀ y, rowComplete mid.grid y = false) → (∀ x, colComplete mid.grid x = false) →
        ∀ r c,
          (covers block gridX gridY r c = true → game.grid r c = 0 ∧ game'.grid r c ≠ 0) ∧
          (covers block gridX gridY r c = false → game'.grid r c = game.grid r c)) := by
  obtain ⟨game', hg⟩ := PlaceBlock_ok game block gridX gridY rand1 rand2 hidx hvalid
  obtain ⟨filled, hmid, hfill, hfin⟩ := PlaceBlock_some _ _ _ _ _ _ _ hg
  have hf := refillSlot_some _ _ _ hfill
  have hci : (1 + ((rand1 % 1000 : Nat) : Int)) ≠ 0 := by omega
  -- the grid and colours of the returned state
  have hgrid : game'.grid = colsEmptied (rowsEmptied
      (paintCells game block (1 + ((rand1 % 1000 : Nat) : Int)) (covers block gridX gridY)).grid) := by
    rw [hfin, (markGameOver_fields _).1, CheckAndClearLines_eq]
    show colsEmptied (rowsEmptied filled.grid) = _
    rw [hf.2.1]
  have hcol : game'.gridColors =
      (paintCells game block (1 + ((rand1 % 1000 : Nat) : Int))
        (covers block gridX gridY)).gridColors := by
    rw [hfin, (markGameOver_fields _).2.1, CheckAndClearLines_eq]
    show filled.gridColors = _
    rw [hf.2.2.1]
  have hmg : ∀ r c, (paintCells game block (1 + ((rand1 % 1000 : Nat) : Int))
      (covers block gridX gridY)).grid r c =
      if covers block gridX gridY r c = true then (1 + ((rand1 % 1000 : Nat) : Int))
      else game.grid r c := fun r c => rfl
  have hmc : ∀ r c k, (paintCells game block (1 + ((rand1 % 1000 : Nat) : Int))
      (covers block gridX gridY)).gridColors r c k =
      if covers block gridX gridY r c = true then
        (if k = 0 then block.colorStart else block.colorEnd)
      else game.gridColors r c k := fun r c k => rfl
  have hfinal : ∀ r c, game'.grid r c =
      if colComplete (rowsEmptied (paintCells game block (1 + ((rand1 % 1000 : Nat) : Int))
          (covers block gridX gridY)).grid) c = true then 0
      else if rowComplete (paintCells game block (1 + ((rand1 % 1000 : Nat) : Int))
          (covers block gridX gridY)).grid r = true then 0
      else (paintCells game block (1 + ((rand1 % 1000 : Nat) : Int))
          (covers block gridX gridY)).grid r c := by
    intro r c
    rw [hgrid]
    rfl
  refine ⟨_, game', hmid, hg, ?_, ?_, ?_, ?_, ?_, ?_⟩
  · intro r c hcov
    refine ⟨covers_empty game block gridX gridY hvalid r c hcov, ?_⟩
    rw [hmg, if_pos hcov]
    exact hci
  · intro r c hcov
    rw [hmg]
    simp [hcov]
  · intro r c hcov
    refine ⟨?_, ?_, ?_⟩
    · rw [hcol, hmc, if_pos hcov]; simp
    · rw [hcol, hmc, if_pos hcov]; simp
    · intro hr hc
      rw [rowPass_grid] at hc
      rw [hfinal, hc, hr, hmg, if_pos hcov]
      simpa using hci
  · intro r c hcov
    refine ⟨?_, ?_⟩
    · funext k
      rw [hcol, hmc]
      simp [hcov]
    · intro hr hc
      rw [rowPass_grid] at hc
      rw [hfinal, hc, hr, hmg]
      simp [hcov]
  · intro r c hrc
    rw [rowPass_grid] at hrc
    rw [hfinal]
    rcases hrc with hr | hc
    · rw [hr]
      split <;> simp
    · rw [hc]
      simp
  · intro hrows hcols r c
    have hcz : ∀ x, colComplete (rowsEmptied (paintCells game block
        (1 + ((rand1 % 1000 : Nat) : Int)) (covers block gridX gridY)).grid) x = false := by
      rw [rowsEmptied_of_none _ hrows]
      exact hcols
    constructor
    · intro hcov
      refine ⟨covers_empty game block gridX gridY hvalid r c hcov, ?_⟩
      rw [hfinal, hcz c, hrows r, hmg, if_pos hcov]
      simpa using hci
    · intro hcov
      rw [hfinal, hcz c, hrows r, hmg]
      simp [hcov]

/-! ## Game steps -/

theorem PlaceBlock_fields (game game' : GameState) (block : BlockShape) (gridX gridY : Int)
    (rand1 rand2 : Nat) (h : PlaceBlock game block gridX gridY rand1 rand2 = some game') :
    (∃ g, game'.grid = (CheckAndClearLines g).grid) ∧
    game'.isDragging = false ∧
    (game.gameOver = true → game'.gameOver = true) := by
  obtain ⟨filled, _, hfill, hfin⟩ := PlaceBlock_some _ _ _ _ _ _ _ h
  have hf := refillSlot_some _ _ _ hfill
  have hm := markGameOver_fields (CheckAndClearLines filled)
  refine ⟨⟨filled, by rw [hfin, hm.1]⟩, ?_, ?_⟩
  · rw [hfin, hm.2.2.2.2.1, CheckAndClearLines_eq]
    exact hf.2.2.2.2.2.1
  · intro hgo
    rw [hfin, hm.2.2.2.2.2.2.2, CheckAndClearLines_eq]
    show (!canPlaceAny _ || filled.gameOver) = true
    rw [hf.2.2.2.2.1]
    have : (paintCells game block (1 + ((rand1 % 1000 : Nat) : Int))
        (covers block gridX gridY)).gameOver = true := hgo
    rw [this]
    simp

theorem pressBlock_fields (game : GameState) (inp : FrameInput) :
    (pressBlock game inp).grid = game.grid ∧
    ((pressBlock game inp).isDragging = true →
      (game.isDragging = true → 0 ≤ game.draggedBlockIndex ∧ game.draggedBlockIndex < 3) →
      0 ≤ (pressBlock game inp).draggedBlockIndex ∧ (pressBlock game inp).draggedBlockIndex < 3) := by
  unfold pressBlock
  cases (List.finRange 3).find? inp.overSlot with
  | none => exact ⟨rfl, fun h1 h2 => h2 h1⟩
  | some i =>
    refine ⟨rfl, fun _ _ => ?_⟩
    have := i.isLt
    show 0 ≤ (i.val : Int) ∧ (i.val : Int) < 3
    omega

theorem releaseBlock_some (game g : GameState) (inp : FrameInput)
    (h : releaseBlock game inp = some g) :
    g.isDragging = false ∧
    (g.grid = game.grid ∨ ∃ g0, g.grid = (CheckAndClearLines g0).grid) := by
  unfold releaseBlock at h
  simp only [Option.map_eq_some'] at h
  obtain ⟨p, hp, hg⟩ := h
  subst hg
  refine ⟨rfl, ?_⟩
  show p.grid = game.grid ∨ ∃ g0, p.grid = (CheckAndClearLines g0).grid
  split at hp
  · split at hp
    · split at hp
      · exact Or.inr (PlaceBlock_fields _ _ _ _ _ _ _ hp).1
      · left
        rw [← Option.some.inj hp]
    · cases hp
  · left
    rw [← Option.some.inj hp]

theorem releaseBlock_ok (game : GameState) (inp : FrameInput)
    (hidx : 0 ≤ game.draggedBlockIndex ∧ game.draggedBlockIndex < 3) :
    ∃ g, releaseBlock game inp = some g := by
  unfold releaseBlock
  simp only [Option.map_eq_some']
  split
  · try rw [dif_pos hidx]
    split
    · rename_i hv
      obtain ⟨p, hp⟩ := PlaceBlock_ok game _ _ _ inp.randColor inp.randShape hidx hv
      exact ⟨_, ⟨p, hp, rfl⟩⟩
    · exact ⟨_, ⟨game, rfl, rfl⟩⟩
  · exact ⟨_, ⟨game, rfl, rfl⟩⟩

theorem UpdateGame_over (game : GameState) (inp : FrameInput) (hgo : game.gameOver = true) :
    UpdateGame game inp =
      if inp.keyR = true then some (InitGame game inp.randInit) else some game := by
  unfold UpdateGame
  rw [if_pos hgo]

theorem UpdateGame_running (game game' : GameState) (inp : FrameInput)
    (hgo : game.gameOver = false) (h : UpdateGame game inp = some game') :
    ∃ g, (g = pressBlock game inp ∨ g = game ∨ releaseBlock game inp = some g) ∧
      game'.grid = g.grid ∧ game'.isDragging = g.isDragging ∧
      game'.draggedBlockIndex = g.draggedBlockIndex := by
  unfold UpdateGame at h
  simp only [hgo, Bool.false_eq_true, if_false, Option.map_eq_some'] at h
  obtain ⟨g, hg, hfin⟩ := h
  refine ⟨g, ?_, ?_⟩
  · split at hg
    · left; exact (Option.some.inj hg).symm
    · split at hg
      · right; right; exact hg
      · right; left; exact (Option.some.inj hg).symm
  · rw [← hfin]
    split <;> exact ⟨rfl, rfl, rfl⟩

theorem UpdateGame_ok (game : GameState) (inp : FrameInput) (hs : slotOk game) :
    ∃ game', UpdateGame game inp = some game' := by
  cases hgo : game.gameOver
  · unfold UpdateGame
    simp only [hgo, Bool.false_eq_true, if_false, Option.map_eq_some']
    by_cases hp : inp.leftPressed = true
    · simp only [hp, if_true]
      exact ⟨_, _, rfl, rfl⟩
    · simp only [hp, if_false]
      by_cases hr : (inp.leftReleased && game.isDragging) = true
      · simp only [hr, if_true]
        have hd : game.isDragging = true := by
          simp only [Bool.and_eq_true] at hr
          exact hr.2
        obtain ⟨g, hg⟩ := releaseBlock_ok game inp (hs hd)
        exact ⟨_, g, hg, rfl⟩
      · simp only [hr]
        exact ⟨_, _, rfl, rfl⟩
  · rw [UpdateGame_over game inp hgo]
    split
    · exact ⟨_, rfl⟩
    · exact ⟨_, rfl⟩

theorem InitGame_fields (game : GameState) (rands : Fin 3 → Nat) :
    (InitGame game rands).isDragging = false ∧ (InitGame game rands).gameOver = false := by
  simp [InitGame, GenerateRandomBlocks_eq]

theorem Reachable_slotOk (game : GameState) (h : Reachable game) : slotOk game := by
  induction h with
  | init prior rands =>
    intro hd
    rw [(InitGame_fields prior rands).1] at hd
    cases hd
  | update game game' inp _ hu ih =>
    cases hgo : game.gameOver
    · obtain ⟨g, hg, _, hdrag, hidx⟩ := UpdateGame_running game game' inp hgo hu
      intro hd
      rw [hidx]
      rw [hdrag] at hd
      rcases hg with hg | hg | hg
      · rw [hg] at hd ⊢
        exact (pressBlock_fields game inp).2 hd ih
      · rw [hg] at hd ⊢
        exact ih hd
      · rw [(releaseBlock_some game g inp hg).1] at hd
        cases hd
    · rw [UpdateGame_over game inp hgo] at hu
      split at hu
      · rw [← Option.some.inj hu]
        intro hd
        rw [(InitGame_fields game inp.randInit).1] at hd
        cases hd
      · rw [← Option.some.inj hu]
        exact ih
  | place game game' block gridX gridY rand1 rand2 _ _ hp _ =>
    intro hd
    rw [(PlaceBlock_fields _ _ _ _ _ _ _ hp).2.1] at hd
    cases hd

theorem InitGame_no_complete (prior : GameState) (rands : Fin 3 → Nat) :
    (∀ y, rowComplete (InitGame prior rands).grid y = false) ∧
    (∀ x, colComplete (InitGame prior rands).grid x = false) := by
  constructor
  · intro y
    cases hc : rowComplete (InitGame prior rands).grid y
    · rfl
    · exact absurd (InitGame_grid prior rands y 0) ((rowComplete_iff _ _).1 hc 0)
  · intro x
    cases hc : colComplete (InitGame prior rands).grid x
    · rfl
    · exact absurd (InitGame_grid prior rands 0 x) ((colComplete_iff _ _).1 hc 0)

theorem Reachable_no_complete (game : GameState) (h : Reachable game) :
    (∀ y, rowComplete game.grid y = false) ∧ (∀ x, colComplete game.grid x = false) := by
  induction h with
  | init prior rands => exact InitGame_no_complete prior rands
  | update game game' inp _ hu ih =>
    cases hgo : game.gameOver
    · obtain ⟨g, hg, hgrid, _, _⟩ := UpdateGame_running game game' inp hgo hu
      rw [hgrid]
      rcases hg with hg | hg | hg
      · rw [hg, (pressBlock_fields game inp).1]
        exact ih
      · rw [hg]
        exact ih
      · rcases (releaseBlock_some game g inp hg).2 with he | ⟨g0, he⟩
        · rw [he]; exact ih
        · rw [he]; exact CheckAndClearLines_no_complete g0
    · rw [UpdateGame_over game inp hgo] at hu
      split at hu
      · rw [← Option.some.inj hu]
        exact InitGame_no_complete game inp.randInit
      · rw [← Option.some.inj hu]
        exact ih
  | place game game' block gridX gridY rand1 rand2 _ _ hp _ =>
    obtain ⟨g0, he⟩ := (PlaceBlock_fields _ _ _ _ _ _ _ hp).1
    rw [he]
    exact CheckAndClearLines_no_complete g0

/-- C7: the terminal flag is one-way and freezes the game.  A returning
`PlaceBlock` call never turns `gameOver` from true to false; `CheckAndClearLines`
and `GenerateRandomBlocks` do not touch the flag; on a state with
`gameOver = true` an `UpdateGame` frame without the restart key returns the
state unchanged (grid, stored colours, offered blocks, score, `gameOver` and
everything else); and an `UpdateGame` frame that leads from `gameOver = true`
to `gameOver = false` is the restart: the key R was pressed and the new state
is the `InitGame` reset, whose `gameOver` is false. -/
theorem gameOver_one_way (game game' : GameState) (block : BlockShape) (gridX gridY : Int)
    (rand1 rand2 : Nat) (inp : FrameInput) (rands : Fin 3 → Nat) :
    (PlaceBlock game block gridX gridY rand1 rand2 = some game' →
      game.gameOver = true → game'.gameOver = true) ∧
    (CheckAndClearLines game).gameOver = game.gameOver ∧
    (GenerateRandomBlocks game rands).gameOver = game.gameOver ∧
    (game.gameOver = true → inp.keyR = false → UpdateGame game inp = some game) ∧
    (game.gameOver = true → UpdateGame game inp = some game' → game'.gameOver = false →
      inp.keyR = true ∧ game' = InitGame game inp.randInit) ∧
    (InitGame game rands).gameOver = false := by
  refine ⟨?_, ?_, ?_, ?_, ?_, ?_⟩
  · intro hp hgo
    exact (PlaceBlock_fields _ _ _ _ _ _ _ hp).2.2 hgo
  · rw [CheckAndClearLines_eq]
  · rw [GenerateRandomBlocks_eq]
  · intro hgo hk
    rw [UpdateGame_over game inp hgo, hk]
    rfl
  · intro hgo hu hfalse
    rw [UpdateGame_over game inp hgo] at hu
    split at hu
    · rename_i hk
      exact ⟨hk, (Option.some.inj hu).symm⟩
    · rw [← Option.some.inj hu, hgo] at hfalse
      cases hfalse
  · exact (InitGame_fields game rands).2

/-- Instance of `gameOver_one_way`: an idle frame on a terminal state changes
nothing, and a `PlaceBlock` call on it keeps the flag set. -/
theorem gameOver_one_way_witness :
    overState.gameOver = true ∧ idleInput.keyR = false ∧
    UpdateGame overState idleInput = some overState ∧
    ∃ game', PlaceBlock overState (drawShape 0) 2 2 0 0 = some game' ∧ game'.gameOver = true :=
  ⟨by decide, by decide,
    (gameOver_one_way overState overState (drawShape 0) 0 0 0 0 idleInput (fun _ => 0)).2.2.2.1
      (by decide) (by decide),
    (PlaceBlock_ok overState (drawShape 0) 2 2 0 0 (by decide) (by decide)).imp fun game' hp =>
      ⟨hp, (gameOver_one_way overState game' (drawShape 0) 2 2 0 0 idleInput (fun _ => 0)).1 hp
        (by decide)⟩⟩

/-- C9: if `IsValidPlacement` returned true, then for every occupied mask cell
`(x, y)` inside the bounding box the index pair `(gridY + y, gridX + x)` that
`PlaceBlock` writes lies inside `[0,10) x [0,10)`, addresses a cell that was
empty before the call, and the bounds-checked write `writeCell` succeeds on any
state; the whole placement loop returns a state, and so does `PlaceBlock` when
the dragged slot index is inside `0..2`.  `UpdateGame`, which calls
`PlaceBlock` only after `IsValidPlacement` returned true, returns a state in
every reachable state: its out-of-range branches are never taken. -/
theorem PlaceBlock_writes_in_bounds (game : GameState) (block : BlockShape)
    (gridX gridY : Int) (rand1 rand2 : Nat)
    (hvalid : IsValidPlacement game block gridX gridY = true) :
    (∀ y x : Fin 6, (x.val : Int) < block.width → (y.val : Int) < block.height →
      block.cells y x = true →
        0 ≤ gridY + (y.val : Int) ∧ gridY + (y.val : Int) < 10 ∧
        0 ≤ gridX + (x.val : Int) ∧ gridX + (x.val : Int) < 10 ∧
        gridAt game.grid (gridY + (y.val : Int)) (gridX + (x.val : Int)) = some 0 ∧
        ∀ (g : GameState) (ci : Int),
          ∃ g', writeCell g block ci (gridY + (y.val : Int)) (gridX + (x.val : Int)) = some g') ∧
    (∃ mid, placeCells block (1 + ((rand1 % 1000 : Nat) : Int)) gridX gridY
      (List.range block.height.toNat) (List.range block.width.toNat) game = some mid) ∧
    (0 ≤ game.draggedBlockIndex ∧ game.draggedBlockIndex < 3 →
      ∃ game', PlaceBlock game block gridX gridY rand1 rand2 = some game') ∧
    (∀ (g : GameState) (inp : FrameInput), Reachable g → ∃ g', UpdateGame g inp = some g') := by
  refine ⟨?_, ?_, ?_, ?_⟩
  · intro y x hx hy hc
    have h0 := (IsValidPlacement_iff_loop game block gridX gridY).1 hvalid y.val x.val hy hx
      (by rw [cellAt_fin]; exact hc)
    have hb := gridAt_some_bounds _ _ _ _ h0
    exact ⟨hb.1, hb.2.1, hb.2.2.1, hb.2.2.2, h0, fun g ci => writeCell_ok g block ci _ _ hb⟩
  · exact placeCells_ok _ _ _ _ _ _ _ (IsValidPlacement_bounds game block gridX gridY hvalid)
  · intro hidx
    exact PlaceBlock_ok game block gridX gridY rand1 rand2 hidx hvalid
  · intro g inp hr
    exact UpdateGame_ok g inp (Reachable_slotOk g hr)

/-- Instance of `PlaceBlock_writes_in_bounds`: the L shape at anchor `(8, 7)`,
the lower right corner of the empty grid. -/
theorem PlaceBlock_writes_in_bounds_witness :
    IsValidPlacement emptyState (drawShape 2) 8 7 = true ∧
    (∃ mid, placeCells (drawShape 2) (1 + ((5 % 1000 : Nat) : Int)) 8 7
      (List.range (drawShape 2).height.toNat) (List.range (drawShape 2).width.toNat)
      emptyState = some mid) ∧
    (∃ game', PlaceBlock emptyState (drawShape 2) 8 7 5 6 = some game') :=
  ⟨by decide,
    (PlaceBlock_writes_in_bounds emptyState (drawShape 2) 8 7 5 6 (by decide)).2.1,
    (PlaceBlock_writes_in_bounds emptyState (drawShape 2) 8 7 5 6 (by decide)).2.2.1 (by decide)⟩

/-- C10: for every input state, the grid that `CheckAndClearLines` produces has
no fully occupied row and no fully occupied column; consequently the grid of
every reachable state (after `InitGame`, `UpdateGame` frames and `PlaceBlock`
calls) has no complete row and no complete column. -/
theorem no_complete_line (game : GameState) :
    ((∀ y, rowComplete (CheckAndClearLines game).grid y = false) ∧
      (∀ x, colComplete (CheckAndClearLines game).grid x = false)) ∧
    (Reachable game →
      (∀ y, rowComplete game.grid y = false) ∧ (∀ x, colComplete game.grid x = false)) :=
  ⟨CheckAndClearLines_no_complete game, Reachable_no_complete game⟩

/-- Instance of `no_complete_line`: the state after the 2x2 square was placed
on a fresh game is reachable and has no complete line. -/
theorem no_complete_line_witness :
    ∃ game', PlaceBlock (InitGame emptyState (fun _ => 0)) (drawShape 1) 3 4 5 6 = some game' ∧
      Reachable game' ∧
      (∀ y, rowComplete game'.grid y = false) ∧ (∀ x, colComplete game'.grid x = false) :=
  (PlaceBlock_ok (InitGame emptyState (fun _ => 0)) (drawShape 1) 3 4 5 6
      (by decide) (by decide)).imp fun game' hp =>
    ⟨hp,
      Reachable.place _ game' (drawShape 1) 3 4 5 6 (Reachable.init _ _) (by decide) hp,
      (no_complete_line game').2
        (Reachable.place _ game' (drawShape 1) 3 4 5 6 (Reachable.init _ _) (by decide) hp)⟩

/-- Instance of `PlaceBlock_frame`: the 2x2 square placed at `(3, 4)` on the
empty grid from slot 0. -/
theorem PlaceBlock_frame_witness :
    (0 ≤ emptyState.draggedBlockIndex ∧ emptyState.draggedBlockIndex < 3) ∧
    IsValidPlacement emptyState (drawShape 1) 3 4 = true ∧
    ∃ mid game',
      placeCells (drawShape 1) (1 + ((5 % 1000 : Nat) : Int)) 3 4
        (List.range (drawShape 1).height.toNat) (List.range (drawShape 1).width.toNat)
        emptyState = some mid ∧
      PlaceBlock emptyState (drawShape 1) 3 4 5 6 = some game' ∧
      (∀ r c, covers (drawShape 1) 3 4 r c = true → emptyState.grid r c = 0 ∧ mid.grid r c ≠ 0) ∧
      (∀ r c, covers (drawShape 1) 3 4 r c = false → mid.grid r c = emptyState.grid r c) ∧
      (∀ r c, covers (drawShape 1) 3 4 r c = true →
        game'.gridColors r c 0 = (drawShape 1).colorStart ∧
        game'.gridColors r c 1 = (drawShape 1).colorEnd ∧
        (rowComplete mid.grid r = false →
          colComplete (rowPass (List.finRange 10) (mid.grid, 0)).1 c = false →
            game'.grid r c ≠ 0)) ∧
      (∀ r c, covers (drawShape 1) 3 4 r c = false →
        game'.gridColors r c = emptyState.gridColors r c ∧
        (rowComplete mid.grid r = false →
          colComplete (rowPass (List.finRange 10) (mid.grid, 0)).1 c = false →
            game'.grid r c = emptyState.grid r c)) ∧
      (∀ r c, rowComplete mid.grid r = true ∨
          colComplete (rowPass (List.finRange 10) (mid.grid, 0)).1 c = true →
        game'.grid r c = 0) ∧
      ((∀ y, rowComplete mid.grid y = false) → (∀ x, colComplete mid.grid x = false) →
        ∀ r c,
          (covers (drawShape 1) 3 4 r c = true → emptyState.grid r c = 0 ∧ game'.grid r c ≠ 0) ∧
          (covers (drawShape 1) 3 4 r c = false → game'.grid r c = emptyState.grid r c)) :=
  ⟨by decide, by decide,
    PlaceBlock_frame emptyState (drawShape 1) 3 4 5 6 (by decide) (by decide)⟩

/-! ## Anchors of library shapes -/

theorem ShapeLibrary_touchesAllSides (block : BlockShape) (h : block ∈ ShapeLibrary) :
    touchesAllSides block = true := by
  have hall : ShapeLibrary.all touchesAllSides = true := by decide
  exact List.all_eq_true.1 hall block h

theorem anchor_bounds_of_touchesAllSides (game : GameState) (block : BlockShape) (x y : Int)
    (ht : touchesAllSides block = true) (hvalid : IsValidPlacement game block x y = true) :
    0 < block.width ∧ 0 < block.height ∧
    0 ≤ x ∧ 0 ≤ y ∧ x + block.width ≤ 10 ∧ y + block.height ≤ 10 := by
  unfold touchesAllSides at ht
  simp only [Bool.and_eq_true, decide_eq_true_eq, List.any_eq_true, List.mem_range] at ht
  obtain ⟨⟨⟨⟨⟨hw, hh⟩, ⟨y1, hy1, hc1⟩⟩, ⟨x2, hx2, hc2⟩⟩, ⟨y3, hy3, hc3⟩⟩, ⟨x4, hx4, hc4⟩⟩ := ht
  have hloop := (IsValidPlacement_iff_loop game block x y).1 hvalid
  have b1 := gridAt_some_bounds _ _ _ _ (hloop y1 0 (by omega) (by omega) hc1)
  have b2 := gridAt_some_bounds _ _ _ _ (hloop 0 x2 (by omega) (by omega) hc2)
  have b3 := gridAt_some_bounds _ _ _ _
    (hloop y3 (block.width.toNat - 1) (by omega) (by omega) hc3)
  have b4 := gridAt_some_bounds _ _ _ _
    (hloop (block.height.toNat - 1) x4 (by omega) (by omega) hc4)
  refine ⟨hw, hh, ?_, ?_, ?_, ?_⟩ <;> omega

/-- The scan of `PlaceBlock` finds every placement of a side-touching shape:
a valid integer anchor of an offered block lies among the 100 scanned anchors. -/
theorem canPlaceAny_of_valid (game : GameState) (i : Fin 3) (x y : Int)
    (ht : touchesAllSides (game.currentBlocks i) = true)
    (hvalid : IsValidPlacement game (game.currentBlocks i) x y = true) :
    canPlaceAny game = true := by
  have hb := anchor_bounds_of_touchesAllSides game _ x y ht hvalid
  rw [canPlaceAny_iff]
  refine ⟨i, ⟨x.toNat, by omega⟩, ⟨y.toNat, by omega⟩, ?_⟩
  have ex : ((x.toNat : Nat) : Int) = x := by omega
  have ey : ((y.toNat : Nat) : Int) = y := by omega
  simp only [ex, ey]
  exact hvalid

theorem PlaceBlock_gameOver_eq (game game' : GameState) (block : BlockShape)
    (gridX gridY : Int) (rand1 rand2 : Nat)
    (h : PlaceBlock game block gridX gridY rand1 rand2 = some game') :
    game'.gameOver = (!canPlaceAny game' || game.gameOver) := by
  obtain ⟨filled, _, hfill, hfin⟩ := PlaceBlock_some _ _ _ _ _ _ _ h
  have hf := refillSlot_some _ _ _ hfill
  have hgo : (CheckAndClearLines filled).gameOver = game.gameOver := by
    rw [CheckAndClearLines_eq]
    show filled.gameOver = game.gameOver
    rw [hf.2.2.2.2.1]
    rfl
  rw [hfin, canPlaceAny_markGameOver, (markGameOver_fields _).2.2.2.2.2.2.2, hgo]

theorem PlaceBlock_blocks (game game' : GameState) (block : BlockShape)
    (gridX gridY : Int) (rand1 rand2 : Nat)
    (h : PlaceBlock game block gridX gridY rand1 rand2 = some game')
    (hl : ∀ i, game.currentBlocks i ∈ ShapeLibrary) :
    ∀ i, game'.currentBlocks i ∈ ShapeLibrary := by
  obtain ⟨filled, _, hfill, hfin⟩ := PlaceBlock_some _ _ _ _ _ _ _ h
  have hf := refillSlot_some _ _ _ hfill
  intro i
  rw [hfin, (markGameOver_fields _).2.2.1, CheckAndClearLines_eq]
  show filled.currentBlocks i ∈ ShapeLibrary
  rw [hf.2.2.2.2.2.2.2.2 i]
  split
  · exact drawShape_mem rand2
  · exact hl i

theorem pressBlock_blocks (game : GameState) (inp : FrameInput) :
    (pressBlock game inp).currentBlocks = game.currentBlocks := by
  unfold pressBlock
  cases (List.finRange 3).find? inp.overSlot <;> rfl

theorem releaseBlock_blocks (game g : GameState) (inp : FrameInput)
    (h : releaseBlock game inp = some g)
    (hl : ∀ i, game.currentBlocks i ∈ ShapeLibrary) :
    ∀ i, g.currentBlocks i ∈ ShapeLibrary := by
  unfold releaseBlock at h
  simp only [Option.map_eq_some'] at h
  obtain ⟨p, hp, hg⟩ := h
  subst hg
  show ∀ i, p.currentBlocks i ∈ ShapeLibrary
  split at hp
  · split at hp
    · split at hp
      · exact PlaceBlock_blocks _ _ _ _ _ _ _ hp hl
      · rw [← Option.some.inj hp]
        exact hl
    · cases hp
  · rw [← Option.some.inj hp]
    exact hl

theorem UpdateGame_blocks (game game' : GameState) (inp : FrameInput)
    (h : UpdateGame game inp = some game')
    (hl : ∀ i, game.currentBlocks i ∈ ShapeLibrary) :
    ∀ i, game'.currentBlocks i ∈ ShapeLibrary := by
  cases hgo : game.gameOver
  · unfold UpdateGame at h
    simp only [hgo, Bool.false_eq_true, if_false, Option.map_eq_some'] at h
    obtain ⟨g, hg, hfin⟩ := h
    have hgl : ∀ i, g.currentBlocks i ∈ ShapeLibrary := by
      split at hg
      · rw [← Option.some.inj hg, pressBlock_blocks]
        exact hl
      · split at hg
        · exact releaseBlock_blocks game g inp hg hl
        · rw [← Option.some.inj hg]
          exact hl
    rw [← hfin]
    split <;> exact hgl
  · rw [UpdateGame_over game inp hgo] at h
    split at h
    · rw [← Option.some.inj h]
      intro i
      simp [InitGame, GenerateRandomBlocks_eq, drawShape_mem]
    · rw [← Option.some.inj h]
      exact hl

/-- Every offered block of a reachable state is an entry of `ShapeLibrary`. -/
theorem Reachable_blocks (game : GameState) (h : Reachable game) :
    ∀ i, game.currentBlocks i ∈ ShapeLibrary := by
  induction h with
  | init prior rands =>
    intro i
    simp [InitGame, GenerateRandomBlocks_eq, drawShape_mem]
  | update game game' inp _ hu ih => exact UpdateGame_blocks game game' inp hu ih
  | place game game' block gridX gridY rand1 rand2 _ _ hp ih =>
    exact PlaceBlock_blocks _ _ _ _ _ _ _ hp ih

/-- C11: for every grid, every entry `block` of `ShapeLibrary` and all integers
`x`, `y`: if `IsValidPlacement` returns true at anchor `(x, y)` then `0 ≤ x`,
`0 ≤ y`, `x + width ≤ 10` and `y + height ≤ 10`.  Hence, when `block` is one
of the offered blocks, the scan of `PlaceBlock` over the anchors
`0 ≤ x, y < 10` finds a valid placement (`canPlaceAny` is true), and a state
returned by `PlaceBlock` from a non-terminal state has `gameOver = false`:
game over is never declared while a legal move exists at any integer anchor,
negative ones included.  The offered blocks of every reachable state are
entries of `ShapeLibrary`. -/
theorem library_anchor_in_grid (game : GameState) (block : BlockShape) (x y : Int)
    (hlib : block ∈ ShapeLibrary)
    (hvalid : IsValidPlacement game block x y = true) :
    (0 ≤ x ∧ 0 ≤ y ∧ x + block.width ≤ 10 ∧ y + block.height ≤ 10) ∧
    ((∃ i, game.currentBlocks i = block) → canPlaceAny game = true) ∧
    (∀ (prev : GameState) (pblock : BlockShape) (px py : Int) (rand1 rand2 : Nat),
      prev.gameOver = false →
      PlaceBlock prev pblock px py rand1 rand2 = some game →
      (∃ i, game.currentBlocks i = block) → game.gameOver = false) ∧
    (Reachable game → ∀ i, game.currentBlocks i ∈ ShapeLibrary) := by
  have ht := ShapeLibrary_touchesAllSides block hlib
  have hb := anchor_bounds_of_touchesAllSides game block x y ht hvalid
  have hscan : (∃ i, game.currentBlocks i = block) → canPlaceAny game = true := by
    rintro ⟨i, hi⟩
    exact canPlaceAny_of_valid game i x y (by rw [hi]; exact ht) (by rw [hi]; exact hvalid)
  refine ⟨⟨hb.2.2.1, hb.2.2.2.1, hb.2.2.2.2.1, hb.2.2.2.2.2⟩, hscan, ?_, Reachable_blocks game⟩
  intro prev pblock px py rand1 rand2 hprev hp hslot
  rw [PlaceBlock_gameOver_eq prev game pblock px py rand1 rand2 hp, hscan hslot, hprev]
  rfl

/-- Instance of `library_anchor_in_grid`: the L shape, offered in every slot,
at anchor `(3, 4)` of the empty grid. -/
theorem library_anchor_in_grid_witness :
    drawShape 2 ∈ ShapeLibrary ∧
    IsValidPlacement { emptyState with currentBlocks := fun _ => drawShape 2 }
      (drawShape 2) 3 4 = true ∧
    ((0 : Int) ≤ 3 ∧ (0 : Int) ≤ 4 ∧ 3 + (drawShape 2).width ≤ 10 ∧
      4 + (drawShape 2).height ≤ 10) ∧
    canPlaceAny { emptyState with currentBlocks := fun _ => drawShape 2 } = true :=
  ⟨drawShape_mem 2, by decide,
    (library_anchor_in_grid { emptyState with currentBlocks := fun _ => drawShape 2 }
      (drawShape 2) 3 4 (drawShape_mem 2) (by decide)).1,
    (library_anchor_in_grid { emptyState with currentBlocks := fun _ => drawShape 2 }
      (drawShape 2) 3 4 (drawShape_mem 2) (by decide)).2.1 ⟨0, rfl⟩⟩

end BlockBlaster
